import Mathlib

/-!
Shallow embedding of the incremental sync engine of the zoho_job_automation
repository: `src/etl/pipeline.py` (tracker store, incremental criteria builder,
entity mappers, reconciler, sync orchestrators) and
`src/zoho/webhook_handler.py` (webhook patch update of a local contact).

Python values flowing through the pipeline are modelled by `PyValue`
(JSON-like values plus `datetime` objects), Python `datetime` objects by
`PyDatetime` (timezone offset in minutes, `none` = naive), rows of the local
store by association lists from column name to value, and exceptions by
`Except String`.
-/

/-- A Python `datetime`: `tz` is the UTC offset in minutes (`none` = naive). -/
structure PyDatetime where
  year : Int
  month : Int
  day : Int
  hour : Int
  minute : Int
  second : Int
  tz : Option Int
deriving DecidableEq, Repr

/-- Days from civil epoch (proleptic Gregorian), used for instant comparison
of timezone-aware datetimes. -/
def daysFromCivil (y m d : Int) : Int :=
  let y2 := if m ≤ 2 then y - 1 else y
  let era := (if 0 ≤ y2 then y2 else y2 - 399) / 400
  let yoe := y2 - era * 400
  let mp := if m > 2 then m - 3 else m + 9
  let doy := (153 * mp + 2) / 5 + d - 1
  let doe := yoe * 365 + yoe / 4 - yoe / 100 + doy
  era * 146097 + doe

/-- Absolute instant of an aware datetime, in seconds, offset removed. -/
def instantSeconds (d : PyDatetime) (off : Int) : Int :=
  (daysFromCivil d.year d.month d.day) * 86400 +
    d.hour * 3600 + d.minute * 60 + d.second - off * 60

/-- Lexicographic strict order on integer lists of equal length. -/
def lexLtInt : List Int → List Int → Bool
  | x :: xs, y :: ys => x < y || (x == y && lexLtInt xs ys)
  | _, _ => false

/-- `naiveLt a b` is `a < b` on naive datetimes. -/
def naiveLt (a b : PyDatetime) : Bool :=
  lexLtInt [a.year, a.month, a.day, a.hour, a.minute, a.second]
           [b.year, b.month, b.day, b.hour, b.minute, b.second]

/-- Python `a > b` on datetimes: defined for naive/naive (field-wise) and
aware/aware (instant-wise); comparing naive with aware raises `TypeError`,
modelled by `none`. -/
def pyGT (a b : PyDatetime) : Option Bool :=
  match a.tz, b.tz with
  | none, none => some (naiveLt b a)
  | some x, some y => some (decide (instantSeconds b y < instantSeconds a x))
  | _, _ => none

/-- Python `a < b` on datetimes, same definedness as `pyGT`. -/
def pyLT (a b : PyDatetime) : Option Bool := pyGT b a

/-- Leap year in the proleptic Gregorian calendar. -/
def isLeap (y : Int) : Bool := y % 4 == 0 && (y % 100 != 0 || y % 400 == 0)

/-- Number of days in a month. -/
def daysInMonth (y m : Int) : Int :=
  if m == 2 then (if isLeap y then 29 else 28)
  else if m == 4 || m == 6 || m == 9 || m == 11 then 30
  else 31

/-- Decimal digit value of a character, `none` if not a digit. -/
def digitVal (c : Char) : Option Nat :=
  if c.isDigit then some (c.toNat - 48) else none

/-- Two decimal digits to a number. -/
def twoDigits (a b : Char) : Option Int := do
  let x ← digitVal a
  let y ← digitVal b
  pure (Int.ofNat (x * 10 + y))

/-- Four decimal digits to a number. -/
def fourDigits (a b c d : Char) : Option Int := do
  let x ← twoDigits a b
  let y ← twoDigits c d
  pure (x * 100 + y)

/-- Range validation performed by `datetime.fromisoformat` via the
`datetime` constructor. -/
def validDatetime (y mo d h mi s : Int) : Bool :=
  1 ≤ y && y ≤ 9999 && 1 ≤ mo && mo ≤ 12 && 1 ≤ d && d ≤ daysInMonth y mo &&
    0 ≤ h && h ≤ 23 && 0 ≤ mi && mi ≤ 59 && 0 ≤ s && s ≤ 59

/-- Build a validated datetime. -/
def mkDatetime (y mo d h mi s : Int) (tz : Option Int) : Option PyDatetime :=
  if validDatetime y mo d h mi s then some ⟨y, mo, d, h, mi, s, tz⟩ else none

/-- Model of Python `datetime.fromisoformat`, covering the forms that reach
this codebase: `YYYY-MM-DD`, `YYYY-MM-DD*HH:MM:SS` and
`YYYY-MM-DD*HH:MM:SS±HH:MM` (any single separator character, no fractional
seconds); anything else is unparsable (`ValueError`, modelled by `none`). -/
def fromisoformat (str : String) : Option PyDatetime :=
  match str.toList with
  | [y1, y2, y3, y4, '-', m1, m2, '-', d1, d2] => do
    let y ← fourDigits y1 y2 y3 y4
    let mo ← twoDigits m1 m2
    let d ← twoDigits d1 d2
    mkDatetime y mo d 0 0 0 none
  | [y1, y2, y3, y4, '-', m1, m2, '-', d1, d2, _,
     h1, h2, ':', mi1, mi2, ':', s1, s2] => do
    let y ← fourDigits y1 y2 y3 y4
    let mo ← twoDigits m1 m2
    let d ← twoDigits d1 d2
    let h ← twoDigits h1 h2
    let mi ← twoDigits mi1 mi2
    let s ← twoDigits s1 s2
    mkDatetime y mo d h mi s none
  | [y1, y2, y3, y4, '-', m1, m2, '-', d1, d2, _,
     h1, h2, ':', mi1, mi2, ':', s1, s2, sgn, o1, o2, ':', o3, o4] => do
    let y ← fourDigits y1 y2 y3 y4
    let mo ← twoDigits m1 m2
    let d ← twoDigits d1 d2
    let h ← twoDigits h1 h2
    let mi ← twoDigits mi1 mi2
    let s ← twoDigits s1 s2
    let oh ← twoDigits o1 o2
    let om ← twoDigits o3 o4
    if oh ≤ 23 && om ≤ 59 then
      let off := oh * 60 + om
      if sgn == '+' then mkDatetime y mo d h mi s (some off)
      else if sgn == '-' then mkDatetime y mo d h mi s (some (-off))
      else none
    else none
  | _ => none

/-- Zero-pad a non-negative number to two digits. -/
def pad2 (n : Int) : String := (if n < 10 then "0" else "") ++ toString n

/-- Zero-pad a non-negative number to four digits. -/
def pad4 (n : Int) : String :=
  (if n < 10 then "000" else if n < 100 then "00" else if n < 1000 then "0" else "")
    ++ toString n

/-- Python `strftime` directive `%z`: empty for a naive datetime, otherwise
a colonless signed offset such as `+0000` or `+0530`. -/
def strfZ (tz : Option Int) : String :=
  match tz with
  | none => ""
  | some o => (if o < 0 then "-" else "+") ++ pad2 (o.natAbs / 60) ++ pad2 (o.natAbs % 60)

/-- The offset-free part of `strftime("%Y-%m-%dT%H:%M:%S%z")`. -/
def datePart (d : PyDatetime) : String :=
  pad4 d.year ++ "-" ++ pad2 d.month ++ "-" ++ pad2 d.day ++ "T" ++
    pad2 d.hour ++ ":" ++ pad2 d.minute ++ ":" ++ pad2 d.second

/-- Python `strftime("%Y-%m-%dT%H:%M:%S%z")`. -/
def strftimeISOz (d : PyDatetime) : String := datePart d ++ strfZ d.tz

/-- Python `str.endswith`. -/
def strEndsWith (f suffix : String) : Bool := decide (suffix.data <:+ f.data)

/-- Python slicing `f[:-n]`: all but the last `n` characters. -/
def strDropRight (f : String) (n : Nat) : String :=
  String.mk (f.data.take (f.data.length - n))

/-- A Python value as it flows through the pipeline: JSON-like values plus
`datetime` objects produced by the datetime helpers. -/
inductive PyValue where
  | none
  | str (s : String)
  | int (n : Int)
  | bool (b : Bool)
  | dt (d : PyDatetime)
  | list (xs : List PyValue)
  | dict (fs : List (String × PyValue))
deriving Repr

mutual
/-- Python structural equality (`==`) on the modelled values. -/
def pyEq : PyValue → PyValue → Bool
  | .none, .none => true
  | .str a, .str b => a == b
  | .int a, .int b => a == b
  | .bool a, .bool b => a == b
  | .dt a, .dt b => a == b
  | .list a, .list b => pyEqList a b
  | .dict a, .dict b => pyEqDict a b
  | _, _ => false
def pyEqList : List PyValue → List PyValue → Bool
  | [], [] => true
  | a :: as_, b :: bs => pyEq a b && pyEqList as_ bs
  | _, _ => false
def pyEqDict : List (String × PyValue) → List (String × PyValue) → Bool
  | [], [] => true
  | (k, a) :: fs, (k2, b) :: gs => k == k2 && pyEq a b && pyEqDict fs gs
  | _, _ => false
end

/-- Python truthiness (`if v:`) of an optional value; `none` is an absent
value (`dict.get` miss). -/
def pyTruthy : Option PyValue → Bool
  | Option.none => false
  | some v =>
    match v with
    | .none => false
    | .str s => !(s == "")
    | .int n => !(n == 0)
    | .bool b => b
    | .dt _ => true
    | .list xs => !xs.isEmpty
    | .dict fs => !fs.isEmpty

/-- Python `dict.get(key)`: first binding of the key, `none` on a miss. -/
def dictGet : List (String × PyValue) → String → Option PyValue
  | [], _ => Option.none
  | (k, v) :: fs, key => if k == key then some v else dictGet fs key

mutual
/-- Model of `json.dumps` with its default separators; a `datetime` value is
not JSON serializable (`TypeError`, modelled by `none`). -/
def dumpsV : PyValue → Option String
  | .none => some "null"
  | .str s => some ("\"" ++ s ++ "\"")
  | .int n => some (toString n)
  | .bool b => some (if b then "true" else "false")
  | .dt _ => Option.none
  | .list xs => (dumpsList xs).map (fun s => "[" ++ s ++ "]")
  | .dict fs => (dumpsDict fs).map (fun s => "\x7b" ++ s ++ "\x7d")
def dumpsList : List PyValue → Option String
  | [] => some ""
  | [v] => dumpsV v
  | v :: rest => do
    let s ← dumpsV v
    let r ← dumpsList rest
    pure (s ++ ", " ++ r)
def dumpsDict : List (String × PyValue) → Option String
  | [] => some ""
  | [(k, v)] => (dumpsV v).map (fun s => "\"" ++ k ++ "\": " ++ s)
  | (k, v) :: rest => do
    let s ← dumpsV v
    let r ← dumpsDict rest
    pure ("\"" ++ k ++ "\": " ++ s ++ ", " ++ r)
end

/-- Replace every occurrence of a single-character pattern (the only shape
this codebase uses: `.replace('Z', '+00:00')`). -/
def replaceChars : List Char → List Char → List Char → List Char
  | [], _, _ => []
  | c :: rest, pat, rep =>
    if pat = [c] then rep ++ replaceChars rest pat rep
    else c :: replaceChars rest pat rep

/-- Python `str.replace` for a single-character pattern. -/
def strReplace (s pat rep : String) : String :=
  String.mk (replaceChars s.data pat.data rep.data)

/-- The `parse_datetime` helper of `etl/pipeline.py`: falsy input maps to
`None`; a truthy string is parsed after replacing every `Z` with `+00:00`;
any exception (unparsable string, `.replace` on a non-string) is swallowed
by the bare `except` and maps to `None`. -/
def parse_datetime (date_str : Option PyValue) : Option PyDatetime :=
  if pyTruthy date_str then
    match date_str with
    | some (.str s) => fromisoformat (strReplace s "Z" "+00:00")
    | _ => Option.none
  else Option.none

/-- The `list_to_json` helper of `etl/pipeline.py`: falsy input maps to
`None`, otherwise `json.dumps` of the value (whose `TypeError` on a
non-serializable value is not caught). -/
def list_to_json (lst : Option PyValue) : Except String (Option PyValue) :=
  if pyTruthy lst then
    match lst with
    | some v =>
      match dumpsV v with
      | some s => .ok (some (.str s))
      | Option.none => .error "TypeError: not JSON serializable"
    | Option.none => .error "unreachable"
  else .ok Option.none

/-- The inline `json.dumps(x) if x else None` pattern of `etl/pipeline.py`
(used for `$field_states`, `$approval`, `$review_process`, `$review`):
falsy maps to `None`, truthy is dumped (uncaught `TypeError` possible). -/
def dumps_if_truthy (x : Option PyValue) : Except String (Option PyValue) :=
  if pyTruthy x then
    match x with
    | some v =>
      match dumpsV v with
      | some s => .ok (some (.str s))
      | Option.none => .error "TypeError: not JSON serializable"
    | Option.none => .error "unreachable"
  else .ok Option.none

/-- The `extract_id` helper of `etl/pipeline.py`:
`obj.get('id') if obj else None`. A falsy value maps to `None`; a truthy
dict yields its `id` entry; a truthy non-dict raises `AttributeError`. -/
def extract_id (obj : Option PyValue) : Except String (Option PyValue) :=
  if pyTruthy obj then
    match obj with
    | some (.dict fs) => .ok (dictGet fs "id")
    | _ => .error "AttributeError: no attribute get"
  else .ok Option.none

/-- The `extract_name` helper of `etl/pipeline.py` (as `extract_id`, for the
`name` entry). -/
def extract_name (obj : Option PyValue) : Except String (Option PyValue) :=
  if pyTruthy obj then
    match obj with
    | some (.dict fs) => .ok (dictGet fs "name")
    | _ => .error "AttributeError: no attribute get"
  else .ok Option.none

/-- The `extract_email` helper of `etl/pipeline.py` (as `extract_id`, for
the `email` entry). -/
def extract_email (obj : Option PyValue) : Except String (Option PyValue) :=
  if pyTruthy obj then
    match obj with
    | some (.dict fs) => .ok (dictGet fs "email")
    | _ => .error "AttributeError: no attribute get"
  else .ok Option.none

/-- The inline `rec.get(key, {}).get(sub) if rec.get(key) else None` pattern
of `etl/pipeline.py` (used for `Layout` / `$layout_id` sub-fields). -/
def get_nested (rec : List (String × PyValue)) (key sub : String) :
    Except String (Option PyValue) :=
  if pyTruthy (dictGet rec key) then
    match dictGet rec key with
    | some (.dict fs) => .ok (dictGet fs sub)
    | _ => .error "AttributeError: no attribute get"
  else .ok Option.none

/-- `rec.get(key, False)`: the default-to-false policy for boolean fields. -/
def get_default_false (rec : List (String × PyValue)) (key : String) : PyValue :=
  match dictGet rec key with
  | some v => v
  | Option.none => .bool false

/-- A remote record as fetched from the Record Source. -/
abbrev RemoteRecord := List (String × PyValue)

/-- A mapped local row: column name to value. -/
abbrev Row := List (String × PyValue)

/-- The local table of one entity type, in insertion order. -/
abbrev Store := List Row

/-- `setattr` on a row: replace the first binding of the column, appending
the column if it is not present. -/
def setField : Row → String → PyValue → Row
  | [], k, v => [(k, v)]
  | (k2, v2) :: r, k, v =>
    if k2 == k then (k2, v) :: r else (k2, v2) :: setField r k v

/-- The update branch of the bulk reconciler (`etl/pipeline.py`
`sync_contacts` lines 363-372 and its analogues): every field of the mapped
data except `id` is written onto the existing row. -/
def setFields : Row → Row → Row
  | row, [] => row
  | row, (k, v) :: rest =>
    setFields (if k == "id" then row else setField row k v) rest

/-- `sync_tracker` row (`database/models.py`). -/
structure SyncTrackerRow where
  entity_type : String
  last_sync_timestamp : Option PyDatetime
  records_synced : Int
  created_at : Option PyDatetime
  updated_at : Option PyDatetime
deriving DecidableEq, Repr

/-- `get_sync_tracker` of `etl/pipeline.py`: first tracker row of the
entity type. -/
def get_sync_tracker (trackers : List SyncTrackerRow) (entity_type : String) :
    Option SyncTrackerRow :=
  trackers.find? (fun t => t.entity_type == entity_type)

/-- `update_sync_tracker` of `etl/pipeline.py`: overwrite the timestamp,
count and `updated_at` of the existing tracker row, or create the row
(`created_at`/`updated_at` defaulting to the current time). -/
def update_sync_tracker (entity_type : String) (last_timestamp : PyDatetime)
    (records_count : Int) (now : PyDatetime) :
    List SyncTrackerRow → List SyncTrackerRow
  | [] => [⟨entity_type, some last_timestamp, records_count, some now, some now⟩]
  | t :: rest =>
    if t.entity_type == entity_type then
      { t with last_sync_timestamp := some last_timestamp,
               records_synced := records_count, updated_at := some now } :: rest
    else t :: update_sync_tracker entity_type last_timestamp records_count now rest

/-- `build_incremental_criteria` of `etl/pipeline.py`: `None` maps to no
filter; a naive timestamp is assumed UTC; the timestamp is formatted with
`strftime("%Y-%m-%dT%H:%M:%S%z")` and a trailing `+0000` (and only that
offset) is rewritten to `+00:00`. -/
def build_incremental_criteria (last_sync_timestamp : Option PyDatetime) :
    Option String :=
  match last_sync_timestamp with
  | Option.none => Option.none
  | some ts0 =>
    let ts := if ts0.tz = Option.none then { ts0 with tz := some 0 } else ts0
    let formatted := strftimeISOz ts
    let formatted :=
      if strEndsWith formatted "+0000" then strDropRight formatted 5 ++ "+00:00"
      else formatted
    some ("(Modified_Time:greater_than:" ++ formatted ++ ")")

/-- The scan loop of `get_latest_modified_time`: a falsy `Modified_Time` is
skipped; a truthy string is parsed (Z normalized), with a parse failure
(`ValueError`) caught and skipped; a truthy non-string raises an uncaught
`AttributeError` on `.replace`; a naive/aware comparison failure
(`TypeError`) is caught and the record skipped. -/
def latestScan : List RemoteRecord → Option PyDatetime →
    Except String (Option PyDatetime)
  | [], latest => .ok latest
  | r :: rest, latest =>
    match dictGet r "Modified_Time" with
    | some (.str s) =>
      if s == "" then latestScan rest latest
      else
        match fromisoformat (strReplace s "Z" "+00:00") with
        | Option.none => latestScan rest latest
        | some m =>
          match latest with
          | Option.none => latestScan rest (some m)
          | some lt =>
            match pyGT m lt with
            | some true => latestScan rest (some m)
            | some false => latestScan rest latest
            | Option.none => latestScan rest latest
    | other =>
      if pyTruthy other then .error "AttributeError: no attribute replace"
      else latestScan rest latest

/-- `get_latest_modified_time` of `etl/pipeline.py`. -/
def get_latest_modified_time (records : List RemoteRecord) :
    Except String (Option PyDatetime) :=
  if records.isEmpty then .ok Option.none else latestScan records Option.none

/-- An absent (`dict.get` miss) value is stored as `None`. -/
def optV : Option PyValue → PyValue
  | Option.none => .none
  | some v => v

/-- An optional datetime stored as a column value. -/
def optDt : Option PyDatetime → PyValue
  | Option.none => .none
  | some d => .dt d

/-- The results of the exception-prone sub-expressions of the contact
mapping of `sync_contacts` (`etl/pipeline.py` lines 197-360), in source
order: nested-object extractions and `json.dumps` calls. -/
structure ContactPre where
  account_id : Option PyValue
  field_states : Option PyValue
  role_owner : Option PyValue
  approval : Option PyValue
  review_process : Option PyValue
  layout_id : Option PyValue
  layout_display_label : Option PyValue
  layout_name : Option PyValue
  visa_alt_options : Option PyValue
  interviewer : Option PyValue
  rating : Option PyValue
  review : Option PyValue
  community_owner : Option PyValue
  created_by_email : Option PyValue
  account_name : Option PyValue
  tag : Option PyValue
  visa_owner : Option PyValue

/-- Evaluate the exception-prone sub-expressions of the contact mapping, in
the order they occur in the `contact_data` dict literal. -/
def mapContactPre (c : RemoteRecord) : Except String ContactPre := do
  let account_id ← extract_id (dictGet c "Account_Name")
  let field_states ← dumps_if_truthy (dictGet c "$field_states")
  let role_owner ← extract_name (dictGet c "Role_Owner")
  let approval ← dumps_if_truthy (dictGet c "$approval")
  let review_process ← dumps_if_truthy (dictGet c "$review_process")
  let layout_id ← extract_id (dictGet c "Layout")
  let layout_display_label ← get_nested c "Layout" "display_label"
  let layout_name ← get_nested c "Layout" "name"
  let visa_alt_options ← list_to_json (dictGet c "Visa_Alt_Options")
  let interviewer ← extract_name (dictGet c "Interviewer")
  let rating ← list_to_json (dictGet c "Rating")
  let review ← dumps_if_truthy (dictGet c "$review")
  let community_owner ← extract_name (dictGet c "Community_Owner")
  let created_by_email ← extract_email (dictGet c "Created_By")
  let account_name ← extract_name (dictGet c "Account_Name")
  let tag ← list_to_json (dictGet c "Tag")
  let visa_owner ← extract_name (dictGet c "Visa_Owner")
  pure ⟨account_id, field_states, role_owner, approval, review_process,
    layout_id, layout_display_label, layout_name, visa_alt_options,
    interviewer, rating, review, community_owner, created_by_email,
    account_name, tag, visa_owner⟩

/-- The `contact_data` dict of `sync_contacts` (`etl/pipeline.py` lines
197-360), given the record's `id` value and the pre-computed exception-prone
sub-expressions. -/
def contactRowOf (c : RemoteRecord) (idv : PyValue) (p : ContactPre) : Row :=
  [("id", idv),
   ("first_name", optV (dictGet c "First_Name")),
   ("last_name", optV (dictGet c "Last_Name")),
   ("email", optV (dictGet c "Email")),
   ("phone", optV (dictGet c "Phone")),
   ("account_id", optV p.account_id),
   ("title", optV (dictGet c "Title")),
   ("department", optV (dictGet c "Department")),
   ("updated_time", optDt (parse_datetime (dictGet c "Modified_Time"))),
   ("age_on_start_date", optV (dictGet c "Age_on_Start_Date")),
   ("timezone", optV (dictGet c "Timezone")),
   ("contact_last_name", optV (dictGet c "Contact_Last_Name")),
   ("field_states", optV p.field_states),
   ("arrival_drop_off_address", optV (dictGet c "Arrival_drop_off_address")),
   ("gender", optV (dictGet c "Gender")),
   ("interview", optV (dictGet c "Interview")),
   ("process_flow", get_default_false c "$process_flow"),
   ("end_date", optDt (parse_datetime (dictGet c "End_date"))),
   ("role_owner", optV p.role_owner),
   ("paid_role", optV (dictGet c "Paid_Role")),
   ("role_success_notes", optV (dictGet c "Role_Success_Notes")),
   ("approval", optV p.approval),
   ("departure_date_time", optDt (parse_datetime (dictGet c "Departure_date_time"))),
   ("approval_date", optDt (parse_datetime (dictGet c "Approval_date"))),
   ("requires_a_visa", optV (dictGet c "Requires_a_visa")),
   ("contact_email", optV (dictGet c "Contact_Email")),
   ("follow_up_date", optDt (parse_datetime (dictGet c "Follow_up_Date"))),
   ("review_process", optV p.review_process),
   ("admission_member", optV (dictGet c "Admission_Member")),
   ("english_level", optV (dictGet c "English_Level")),
   ("placement_status", optV (dictGet c "Placement_status")),
   ("likelihood_to_convert", optV (dictGet c "Likelihood_to_convert")),
   ("role_success_stage", optV (dictGet c "Role_Success_Stage")),
   ("call_to_conversion_time_days", optV (dictGet c "Call_to_Conversion_Time_days")),
   ("lead_created_time", optDt (parse_datetime (dictGet c "Lead_Created_Time"))),
   ("university_name", optV (dictGet c "University_Name")),
   ("job_title", optV (dictGet c "Job_Title")),
   ("layout_id", optV p.layout_id),
   ("layout_display_label", optV p.layout_display_label),
   ("layout_name", optV p.layout_name),
   ("intro_call_date", optDt (parse_datetime (dictGet c "Intro_Call_Date"))),
   ("visa_alt_options", optV p.visa_alt_options),
   ("student_decision", optV (dictGet c "Student_decision")),
   ("arrival_date_time", optDt (parse_datetime (dictGet c "Arrival_date_time"))),
   ("rating_new", optV (dictGet c "Rating_New")),
   ("role_confirmed_date", optDt (parse_datetime (dictGet c "Role_confirmed_date"))),
   ("start_date", optDt (parse_datetime (dictGet c "Start_date"))),
   ("last_activity_time", optDt (parse_datetime (dictGet c "Last_Activity_Time"))),
   ("industry", optV (dictGet c "Industry")),
   ("visa_f_u_date", optDt (parse_datetime (dictGet c "Visa_F_U_Date"))),
   ("location_other", optV (dictGet c "Location_Other")),
   ("placement_lead_time_days", optV (dictGet c "Placement_Lead_Time_days")),
   ("graduation_date", optDt (parse_datetime (dictGet c "Graduation_Date"))),
   ("other_payment_status", optV (dictGet c "Other_Payment_Status")),
   ("days_since_conversion", optV (dictGet c "Days_Since_Conversion")),
   ("name1", optV (dictGet c "Name1")),
   ("average_no_of_days", optV (dictGet c "Average_no_of_days")),
   ("duration", optV (dictGet c "Duration")),
   ("warm_call", optV (dictGet c "Warm_Call")),
   ("other_industry", optV (dictGet c "Other_industry")),
   ("call_scheduled_date_time", optDt (parse_datetime (dictGet c "Call_Scheduled_Date_Time"))),
   ("interviewer", optV p.interviewer),
   ("visa_successful", optV (dictGet c "Visa_successful")),
   ("utm_campaign", optV (dictGet c "UTM_Campaign")),
   ("rating", optV p.rating),
   ("alternative_location1", optV (dictGet c "Alternative_Location1")),
   ("enrolment_to_intro_call_lead_time", optV (dictGet c "Enrolment_to_Intro_Call_Lead_Time")),
   ("review", optV p.review),
   ("reason_for_cancellation", optV (dictGet c "Reason_for_Cancellation")),
   ("cancelled_date_time", optDt (parse_datetime (dictGet c "Cancelled_Date_Time"))),
   ("uni_start_date", optDt (parse_datetime (dictGet c "Uni_Start_Date"))),
   ("notes1", optV (dictGet c "Notes1")),
   ("partner_organisation", optV (dictGet c "Partner_Organisation")),
   ("date_of_birth", optDt (parse_datetime (dictGet c "Date_of_Birth"))),
   ("call_booked_date_time", optDt (parse_datetime (dictGet c "Call_Booked_Date_Time"))),
   ("date_of_cancellation", optDt (parse_datetime (dictGet c "Date_of_Cancellation"))),
   ("in_merge", get_default_false c "$in_merge"),
   ("approval_state", optV (dictGet c "$approval_state")),
   ("location", optV (dictGet c "Location")),
   ("industry_choice_1", optV (dictGet c "Industry_Choice_1")),
   ("industry_choice_3", optV (dictGet c "Industry_Choice_3")),
   ("company_decision", optV (dictGet c "Company_decision")),
   ("student_bio", optV (dictGet c "Student_Bio")),
   ("token", optV (dictGet c "Token")),
   ("additional_information", optV (dictGet c "Additional_Information")),
   ("placement_deadline", optDt (parse_datetime (dictGet c "Placement_Deadline"))),
   ("created_time", optDt (parse_datetime (dictGet c "Created_Time"))),
   ("change_log_time", optDt (parse_datetime (dictGet c "Change_Log_Time__s"))),
   ("community_owner", optV p.community_owner),
   ("created_by_email", optV p.created_by_email),
   ("current_location_v2", optV (dictGet c "Current_Location_V2")),
   ("decision_date", optDt (parse_datetime (dictGet c "Decision_Date"))),
   ("utm_medium", optV (dictGet c "UTM_Medium")),
   ("description", optV (dictGet c "Description")),
   ("do_not_contact", get_default_false c "Do_Not_Contact"),
   ("industry_choice_2", optV (dictGet c "Industry_choice_2")),
   ("job_offered_after", optV (dictGet c "Job_offered_after")),
   ("full_name", optV (dictGet c "Full_Name")),
   ("ps_assigned_date", optDt (parse_datetime (dictGet c "PS_Assigned_Date"))),
   ("account_name", optV p.account_name),
   ("email_opt_out", get_default_false c "Email_Opt_Out"),
   ("books_cust_id", optV (dictGet c "books_cust_id")),
   ("student_status", optV (dictGet c "Student_Status")),
   ("days_count", optV (dictGet c "Days_Count")),
   ("record_status", optV (dictGet c "Record_Status__s")),
   ("nationality", optV (dictGet c "Nationality")),
   ("type", optV (dictGet c "Type")),
   ("cancellation_notes", optV (dictGet c "Cancellation_Notes")),
   ("departure_flight_number", optV (dictGet c "Departure_flight_number")),
   ("locked", get_default_false c "Locked__s"),
   ("tag", optV p.tag),
   ("last_enriched_time", optDt (parse_datetime (dictGet c "Last_Enriched_Time__s"))),
   ("country_city_of_residence", optV (dictGet c "Country_city_of_residence")),
   ("refund_date", optDt (parse_datetime (dictGet c "Refund_date"))),
   ("visa_type_exemption", optV (dictGet c "Visa_Type_Exemption")),
   ("industry_2_areas", optV (dictGet c "Industry_2_Areas")),
   ("locked_for_me", get_default_false c "$locked_for_me"),
   ("from_university_partner", optV (dictGet c "From_University_partner")),
   ("placement_urgency", optV (dictGet c "Placement_Urgency")),
   ("enrich_status", optV (dictGet c "Enrich_Status__s")),
   ("visa_eligible", optV (dictGet c "Visa_Eligible")),
   ("utm_content", optV (dictGet c "UTM_Content")),
   ("cohort_start_date", optDt (parse_datetime (dictGet c "Cohort_Start_Date"))),
   ("secondary_email", optV (dictGet c "Secondary_Email")),
   ("is_duplicate", get_default_false c "$is_duplicate"),
   ("signed_agreement", optV (dictGet c "Signed_Agreement")),
   ("myinterview_url", optV (dictGet c "MyInterview_URL")),
   ("interview_successful", optV (dictGet c "Interview_successful")),
   ("skills", optV (dictGet c "Skills")),
   ("link_to_cv", optV (dictGet c "Link_to_CV")),
   ("accommodation_finalised", optV (dictGet c "Accommodation_finalised")),
   ("send_mail2", get_default_false c "Send_Mail2"),
   ("utm_gclid", optV (dictGet c "UTM_GCLID")),
   ("unsubscribed_time", optDt (parse_datetime (dictGet c "Unsubscribed_Time"))),
   ("t_c_link", optV (dictGet c "T_C_Link")),
   ("number_of_days", optV (dictGet c "Number_of_Days")),
   ("agreement_finalised", optV (dictGet c "Agreement_finalised")),
   ("end_date_auto_populated", optDt (parse_datetime (dictGet c "End_date_Auto_populated"))),
   ("industry_1_areas", optV (dictGet c "Industry_1_Areas")),
   ("total", optV (dictGet c "Total")),
   ("visa_owner", optV p.visa_owner),
   ("visa_notes", optV (dictGet c "Visa_Note_s")),
   ("house_rules", optV (dictGet c "House_rules"))]

/-- The contact entity mapper: `contact['id']` raises `KeyError` when the
key is missing; otherwise the `contact_data` dict is built (nested-object
extraction may raise `AttributeError`, `json.dumps` may raise `TypeError`;
all other fields are total). -/
def mapContact (c : RemoteRecord) : Except String Row := do
  let idv ← match dictGet c "id" with
    | some v => Except.ok v
    | Option.none => Except.error "KeyError: id"
  let p ← mapContactPre c
  pure (contactRowOf c idv p)

/-- The exception-prone sub-expressions of the account mapping of
`sync_accounts` (`etl/pipeline.py` lines 473-550), in evaluation order. -/
structure AccountPre where
  owner_id : Option PyValue
  owner_name : Option PyValue
  owner_email : Option PyValue
  company_work_policy : Option PyValue
  approval : Option PyValue
  review_process : Option PyValue
  layout_id : Option PyValue
  layout_display_label : Option PyValue
  layout_name : Option PyValue
  due_diligence_fields_to_revise : Option PyValue
  tag : Option PyValue

/-- Evaluate the exception-prone sub-expressions of the account mapping.
The source dict literal evaluates `json.dumps` of `$review_process` twice
for the duplicated `review_process` key; both occurrences are the same
expression, so it is evaluated once here. -/
def mapAccountPre (a : RemoteRecord) : Except String AccountPre := do
  let owner_id ← extract_id (dictGet a "Owner")
  let owner_name ← extract_name (dictGet a "Owner")
  let owner_email ← extract_email (dictGet a "Owner")
  let company_work_policy ← list_to_json (dictGet a "Company_Work_Policy")
  let approval ← dumps_if_truthy (dictGet a "$approval")
  let review_process ← dumps_if_truthy (dictGet a "$review_process")
  let layout_id ← extract_id (dictGet a "$layout_id")
  let layout_display_label ← get_nested a "$layout_id" "display_label"
  let layout_name ← get_nested a "$layout_id" "name"
  let due_diligence_fields_to_revise ←
    list_to_json (dictGet a "Due_Diligence_Fields_to_Revise")
  let tag ← list_to_json (dictGet a "Tag")
  pure ⟨owner_id, owner_name, owner_email, company_work_policy, approval,
    review_process, layout_id, layout_display_label, layout_name,
    due_diligence_fields_to_revise, tag⟩

/-- The `account_data` dict of `sync_accounts` (`etl/pipeline.py` lines
473-550). The duplicated `review_process` key keeps its first position with
the (identical) value of its last occurrence, as a Python dict literal
does. -/
def accountRowOf (a : RemoteRecord) (idv : PyValue) (p : AccountPre) : Row :=
  [("id", idv),
   ("name", optV (dictGet a "Account_Name")),
   ("industry", optV (dictGet a "Industry")),
   ("billing_address", optV (dictGet a "Billing_Address")),
   ("shipping_address", optV (dictGet a "Shipping_Address")),
   ("owner_id", optV p.owner_id),
   ("owner_name", optV p.owner_name),
   ("owner_email", optV p.owner_email),
   ("cleanup_start_date", optDt (parse_datetime (dictGet a "Cleanup_Start_Date"))),
   ("field_states", optV (dictGet a "$field_states")),
   ("management_status", optV (dictGet a "Management_Status")),
   ("company_work_policy", optV p.company_work_policy),
   ("last_activity_time", optDt (parse_datetime (dictGet a "Last_Activity_Time"))),
   ("last_full_due_diligence_date", optDt (parse_datetime (dictGet a "Last_Full_Due_Diligence_Date"))),
   ("company_industry", optV (dictGet a "Company_Industry")),
   ("company_description", optV (dictGet a "Company_Desciption")),
   ("process_flow", get_default_false a "$process_flow"),
   ("approval_status", optV (dictGet a "Approval_status")),
   ("street", optV (dictGet a "Street")),
   ("locked_for_me", get_default_false a "$locked_for_me"),
   ("classic_partnership", optV (dictGet a "Classic_Partnership")),
   ("state_region", optV (dictGet a "State_Region")),
   ("cleanup_status", optV (dictGet a "Cleanup_Status")),
   ("uni_region", optV (dictGet a "Uni_Region")),
   ("approval", optV p.approval),
   ("uni_outreach_status", optV (dictGet a "Uni_Outreach_Status")),
   ("enrich_status", optV (dictGet a "Enrich_Status__s")),
   ("review_process", optV p.review_process),
   ("roles_available", optV (dictGet a "Roles_available")),
   ("roles", optV (dictGet a "Roles")),
   ("city", optV (dictGet a "City")),
   ("postcode", optV (dictGet a "Postcode")),
   ("outreach_notes", optV (dictGet a "Outreach_Notes")),
   ("company_industry_other", optV (dictGet a "Company_Industry_Other")),
   ("no_employees", optV (dictGet a "No_Employees")),
   ("industry_areas", optV (dictGet a "Industry_areas")),
   ("placement_revision_required", optV (dictGet a "Placement_s_Revision_Required")),
   ("country", optV (dictGet a "Country")),
   ("is_duplicate", get_default_false a "$is_duplicate"),
   ("uni_state_if_in_us", optV (dictGet a "Uni_State_if_in_US")),
   ("follow_up_date", optDt (parse_datetime (dictGet a "Follow_up_Date"))),
   ("layout_id", optV p.layout_id),
   ("layout_display_label", optV p.layout_display_label),
   ("layout_name", optV p.layout_name),
   ("review", optV (dictGet a "$review")),
   ("cleanup_notes", optV (dictGet a "Cleanup_Notes")),
   ("gold_rating", get_default_false a "Gold_Rating"),
   ("account_notes", optV (dictGet a "Account_Notes")),
   ("standard_working_hours", optV (dictGet a "Standard_working_hours")),
   ("due_diligence_fields_to_revise", optV p.due_diligence_fields_to_revise),
   ("uni_country", optV (dictGet a "Uni_Country")),
   ("cleanup_phase", optV (dictGet a "Cleanup_Phase")),
   ("next_reply_date", optDt (parse_datetime (dictGet a "Next_Reply_Date"))),
   ("record_status", optV (dictGet a "Record_Status__s")),
   ("type", optV (dictGet a "Type")),
   ("in_merge", get_default_false a "$in_merge"),
   ("uni_timezone", optV (dictGet a "Uni_Timezone")),
   ("upon_to_remote_interns", get_default_false a "Upon_to_Remote_interns"),
   ("locked", get_default_false a "Locked__s"),
   ("company_address", optV (dictGet a "Company_Address")),
   ("tag", optV p.tag),
   ("approval_state", optV (dictGet a "$approval_state")),
   ("pathfinder", get_default_false a "$pathfinder"),
   ("location", optV (dictGet a "Location")),
   ("location_other", optV (dictGet a "Location_other")),
   ("account_status", optV (dictGet a "Account_Status")),
   ("modified_time", optDt (parse_datetime (dictGet a "Modified_Time")))]

/-- The account entity mapper. -/
def mapAccount (a : RemoteRecord) : Except String Row := do
  let idv ← match dictGet a "id" with
    | some v => Except.ok v
    | Option.none => Except.error "KeyError: id"
  let p ← mapAccountPre a
  pure (accountRowOf a idv p)

/-- The exception-prone sub-expressions of the intern-role mapping of
`sync_intern_roles` (`etl/pipeline.py` lines 640-667), in evaluation
order. -/
structure InternRolePre where
  role_attachments_jd : Option PyValue
  role_tags : Option PyValue
  intern_company_id : Option PyValue
  intern_company_name : Option PyValue
  company_work_policy : Option PyValue
  placement_fields_to_revise : Option PyValue

/-- Evaluate the exception-prone sub-expressions of the intern-role
mapping. -/
def mapInternRolePre (r : RemoteRecord) : Except String InternRolePre := do
  let role_attachments_jd ← list_to_json (dictGet r "Role_Attachments_JD")
  let role_tags ← list_to_json (dictGet r "Role_Tags")
  let intern_company_id ← extract_id (dictGet r "Intern_Company")
  let intern_company_name ← extract_name (dictGet r "Intern_Company")
  let company_work_policy ← list_to_json (dictGet r "Company_Work_Policy")
  let placement_fields_to_revise ←
    list_to_json (dictGet r "Placement_Fields_to_Revise")
  pure ⟨role_attachments_jd, role_tags, intern_company_id,
    intern_company_name, company_work_policy, placement_fields_to_revise⟩

/-- The `role_data` dict of `sync_intern_roles` (`etl/pipeline.py` lines
640-667). -/
def internRoleRowOf (r : RemoteRecord) (idv : PyValue) (p : InternRolePre) : Row :=
  [("id", idv),
   ("name", optV (dictGet r "Name")),
   ("role_title", optV (dictGet r "Role_Title")),
   ("role_description_requirements", optV (dictGet r "Role_Description_Requirements")),
   ("role_status", optV (dictGet r "Role_Status")),
   ("role_function", optV (dictGet r "Role_Function")),
   ("role_department_size", optV (dictGet r "Role_Department_Size")),
   ("role_attachments_jd", optV p.role_attachments_jd),
   ("role_tags", optV p.role_tags),
   ("start_date", optDt (parse_datetime (dictGet r "Start_Date"))),
   ("end_date", optDt (parse_datetime (dictGet r "End_Date"))),
   ("created_time", optDt (parse_datetime (dictGet r "Created_Time"))),
   ("intern_company_id", optV p.intern_company_id),
   ("intern_company_name", optV p.intern_company_name),
   ("company_work_policy", optV p.company_work_policy),
   ("location", optV (dictGet r "Location")),
   ("open_to_remote", optV (dictGet r "Open_to_Remote")),
   ("due_diligence_status_2", optV (dictGet r "Due_Diligence_Status_2")),
   ("account_outreach_status", optV (dictGet r "Account_Outreach_Status")),
   ("record_status", optV (dictGet r "Record_Status__s")),
   ("approval_state", optV (dictGet r "Approval_State")),
   ("management_status", optV (dictGet r "Management_Status")),
   ("placement_fields_to_revise", optV p.placement_fields_to_revise),
   ("placement_revision_notes", optV (dictGet r "Placement_Revision_Notes")),
   ("gold_rating", get_default_false r "Gold_Rating"),
   ("locked", get_default_false r "Locked__s")]

/-- The intern-role entity mapper. -/
def mapInternRole (r : RemoteRecord) : Except String Row := do
  let idv ← match dictGet r "id" with
    | some v => Except.ok v
    | Option.none => Except.error "KeyError: id"
  let p ← mapInternRolePre r
  pure (internRoleRowOf r idv p)

/-- Primary-key match of a stored row against an identifier value
(`session.get(Model, id)` / `Contact.id == value`). -/
def rowMatchesId (row : Row) (idv : PyValue) : Bool :=
  match dictGet row "id" with
  | some v => pyEq v idv
  | Option.none => false

/-- Whether some stored row has the identifier. -/
def containsId (store : Store) (idv : PyValue) : Bool :=
  store.any (fun row => rowMatchesId row idv)

/-- Apply a function to the first row with the identifier. -/
def updateFirst : Store → PyValue → (Row → Row) → Store
  | [], _, _ => []
  | row :: rest, idv, f =>
    if rowMatchesId row idv then f row :: rest
    else row :: updateFirst rest idv f

/-- The reconciler's upsert of one mapped record (`etl/pipeline.py`
`sync_contacts` lines 363-383 and its analogues): overwrite every non-`id`
field of the existing row, or insert the mapped row. -/
def upsertRow (store : Store) (idv : PyValue) (data : Row) : Store :=
  if containsId store idv then
    updateFirst store idv (fun r => setFields r data)
  else store ++ [data]

/-- The per-record loop of a sync run: look up the record's `id` (raising
`KeyError` when missing), map the record, and upsert; the first exception
aborts the whole batch. -/
def applyBatch (mapper : RemoteRecord → Except String Row) :
    Store → List RemoteRecord → Except String Store
  | store, [] => .ok store
  | store, c :: rest => do
    let idv ← match dictGet c "id" with
      | some v => Except.ok v
      | Option.none => Except.error "KeyError: id"
    let row ← mapper c
    applyBatch mapper (upsertRow store idv row) rest

/-- Outcome of one orchestrator invocation. On `failed`, the carried store
and trackers are the durable state when the exception propagated: an
exception before commit rolls the batch back (original store), an exception
after commit keeps the committed store; the trackers are untouched in both
cases. -/
inductive RunResult where
  | ok (store : Store) (trackers : List SyncTrackerRow)
  | failed (msg : String) (store : Store) (trackers : List SyncTrackerRow)
deriving Repr

/-- The criteria selection of `sync_contacts` (`etl/pipeline.py` lines
104-117): incremental mode with a tracker whose timestamp is truthy builds
the incremental filter, otherwise no filter (full fetch). -/
def contactsFetchCriteria (incremental : Bool)
    (trackers : List SyncTrackerRow) : Option String :=
  if incremental then
    match get_sync_tracker trackers "contacts" with
    | some tr =>
      match tr.last_sync_timestamp with
      | some ts => build_incremental_criteria (some ts)
      | Option.none => Option.none
    | Option.none => Option.none
  else Option.none

/-- The criteria selection of `sync_accounts` / `sync_intern_roles`
(`etl/pipeline.py` lines 410-420 and 585-595): the tracker's (possibly
absent) timestamp is passed straight to `build_incremental_criteria`. -/
def accountsFetchCriteria (incremental : Bool) (entity_type : String)
    (trackers : List SyncTrackerRow) : Option String :=
  if incremental then
    match get_sync_tracker trackers entity_type with
    | some tr => build_incremental_criteria tr.last_sync_timestamp
    | Option.none => Option.none
  else Option.none

/-- `sync_contacts` of `etl/pipeline.py`, given the records the Record
Source returned for the run's criteria. After a successful commit the
tracker is updated only when the batch is non-empty and
`get_latest_modified_time` returned a timestamp; an exception inside
`get_latest_modified_time` propagates after the commit. -/
def syncContacts (incremental : Bool) (fetched : List RemoteRecord)
    (now : PyDatetime) (store : Store) (trackers : List SyncTrackerRow) :
    RunResult :=
  match applyBatch mapContact store fetched with
  | .error msg => .failed msg store trackers
  | .ok store2 =>
    if !fetched.isEmpty then
      match get_latest_modified_time fetched with
      | .error msg => .failed msg store2 trackers
      | .ok Option.none => .ok store2 trackers
      | .ok (some latest) =>
        .ok store2 (update_sync_tracker "contacts" latest
          (Int.ofNat fetched.length) now trackers)
    else .ok store2 trackers

/-- `sync_accounts` of `etl/pipeline.py`: as `sync_contacts`, except that
the tracker is only updated when the run was requested as incremental. -/
def syncAccounts (incremental : Bool) (fetched : List RemoteRecord)
    (now : PyDatetime) (store : Store) (trackers : List SyncTrackerRow) :
    RunResult :=
  match applyBatch mapAccount store fetched with
  | .error msg => .failed msg store trackers
  | .ok store2 =>
    if incremental && !fetched.isEmpty then
      match get_latest_modified_time fetched with
      | .error msg => .failed msg store2 trackers
      | .ok Option.none => .ok store2 trackers
      | .ok (some latest) =>
        .ok store2 (update_sync_tracker "accounts" latest
          (Int.ofNat fetched.length) now trackers)
    else .ok store2 trackers

/-- `sync_intern_roles` of `etl/pipeline.py`: same shape as
`sync_accounts`. -/
def syncInternRoles (incremental : Bool) (fetched : List RemoteRecord)
    (now : PyDatetime) (store : Store) (trackers : List SyncTrackerRow) :
    RunResult :=
  match applyBatch mapInternRole store fetched with
  | .error msg => .failed msg store trackers
  | .ok store2 =>
    if incremental && !fetched.isEmpty then
      match get_latest_modified_time fetched with
      | .error msg => .failed msg store2 trackers
      | .ok Option.none => .ok store2 trackers
      | .ok (some latest) =>
        .ok store2 (update_sync_tracker "intern_roles" latest
          (Int.ofNat fetched.length) now trackers)
    else .ok store2 trackers

/-- One conditional field write of the webhook patch
(`zoho/webhook_handler.py` lines 260-269): the column is written only when
the payload value is truthy. -/
def applyWebhookField (info : List (String × PyValue)) (key : String)
    (row : Row) : Row :=
  if pyTruthy (dictGet info key) then setField row key (optV (dictGet info key))
  else row

/-- The webhook patch applied to a found contact row
(`zoho/webhook_handler.py` lines 258-272): conditional writes of the five
payload fields, then an unconditional `updated_time = datetime.now()`. -/
def applyWebhookPatch (info : List (String × PyValue)) (now : PyDatetime)
    (row : Row) : Row :=
  let row := applyWebhookField info "role_success_stage" row
  let row := applyWebhookField info "first_name" row
  let row := applyWebhookField info "last_name" row
  let row := applyWebhookField info "email" row
  let row := applyWebhookField info "phone" row
  setField row "updated_time" (.dt now)

/-- `update_local_contact` of `zoho/webhook_handler.py`: patch the first
contact row matching the payload's id and return `true`; if the id is
missing from the payload (`KeyError`, caught) or no row matches, leave the
store unchanged and return `false`. -/
def update_local_contact (store : Store) (contact_info : List (String × PyValue))
    (now : PyDatetime) : Store × Bool :=
  match dictGet contact_info "id" with
  | Option.none => (store, false)
  | some idv =>
    if containsId store idv then
      (updateFirst store idv (applyWebhookPatch contact_info now), true)
    else (store, false)

/-- The keys of a mapped record are pairwise distinct (it comes from a
Python dict). -/
def nodupKeys (d : Row) : Prop := (d.map Prod.fst).Nodup

/-- Number of stored rows carrying the identifier. -/
def countId (store : Store) (idv : PyValue) : Nat :=
  (store.filter (fun r => rowMatchesId r idv)).length

/-- Whether a run succeeded. -/
def runOk : RunResult → Bool
  | .ok _ _ => true
  | .failed _ _ _ => false

/-- The trackers carried by a run outcome. -/
def runTrackers : RunResult → List SyncTrackerRow
  | .ok _ tr => tr
  | .failed _ _ tr => tr

/-- The store carried by a run outcome. -/
def runStore : RunResult → Store
  | .ok s _ => s
  | .failed _ s _ => s

mutual
theorem pyEq_refl : ∀ v : PyValue, pyEq v v = true
  | .none => rfl
  | .str a => by simp [pyEq]
  | .int a => by simp [pyEq]
  | .bool a => by simp [pyEq]
  | .dt a => by simp [pyEq]
  | .list xs => by simp [pyEq, pyEqList_refl xs]
  | .dict fs => by simp [pyEq, pyEqDict_refl fs]
theorem pyEqList_refl : ∀ xs : List PyValue, pyEqList xs xs = true
  | [] => rfl
  | a :: rest => by simp [pyEqList, pyEq_refl a, pyEqList_refl rest]
theorem pyEqDict_refl : ∀ fs : List (String × PyValue), pyEqDict fs fs = true
  | [] => rfl
  | (k, a) :: rest => by simp [pyEqDict, pyEq_refl a, pyEqDict_refl rest]
end

theorem dictGet_setField_self (r : Row) (k : String) (v : PyValue) :
    dictGet (setField r k v) k = some v := by
  induction r with
  | nil => simp [setField, dictGet]
  | cons hd tl ih =>
    obtain ⟨k2, v2⟩ := hd
    by_cases h : k2 = k
    · simp [setField, h, dictGet]
    · simp [setField, h, dictGet, ih]

theorem dictGet_setField_ne (r : Row) (k : String) (v : PyValue)
    (k' : String) (h : k ≠ k') :
    dictGet (setField r k v) k' = dictGet r k' := by
  induction r with
  | nil => simp [setField, dictGet, h]
  | cons hd tl ih =>
    obtain ⟨k2, v2⟩ := hd
    by_cases h2 : k2 = k
    · subst h2
      simp [setField, dictGet, h]
    · simp [setField, h2, dictGet, ih]

theorem setField_eq_of_get (r : Row) (k : String) (v : PyValue)
    (h : dictGet r k = some v) : setField r k v = r := by
  induction r with
  | nil => simp [dictGet] at h
  | cons hd tl ih =>
    obtain ⟨k2, v2⟩ := hd
    by_cases h2 : k2 = k
    · subst h2
      simp [dictGet] at h
      simp [setField, h]
    · simp [dictGet, h2] at h
      simp [setField, h2, ih h]

theorem dictGet_setFields_not_mem (d : Row) (r : Row) (k : String)
    (h : k ∉ d.map Prod.fst) :
    dictGet (setFields r d) k = dictGet r k := by
  induction d generalizing r with
  | nil => simp [setFields]
  | cons hd rest ih =>
    obtain ⟨k2, v2⟩ := hd
    simp only [List.map_cons, List.mem_cons, not_or] at h
    obtain ⟨hne, hrest⟩ := h
    by_cases hid : k2 = "id"
    · simp [setFields, hid, ih _ hrest]
    · simp only [setFields, hid, if_neg, beq_iff_eq]
      rw [if_neg (by simp [hid]), ih _ hrest,
        dictGet_setField_ne _ _ _ _ (fun hk => hne hk.symm)]

theorem dictGet_setFields_id (d : Row) (r : Row) :
    dictGet (setFields r d) "id" = dictGet r "id" := by
  induction d generalizing r with
  | nil => simp [setFields]
  | cons hd rest ih =>
    obtain ⟨k2, v2⟩ := hd
    by_cases hid : k2 = "id"
    · simp [setFields, hid, ih]
    · simp only [setFields]
      rw [if_neg (by simp [hid]), ih, dictGet_setField_ne _ _ _ _ hid]

theorem dictGet_setFields_mem (d : Row) (hnd : nodupKeys d) (k : String)
    (v : PyValue) (hk : k ≠ "id") (h : dictGet d k = some v) (r : Row) :
    dictGet (setFields r d) k = some v := by
  induction d generalizing r with
  | nil => simp [dictGet] at h
  | cons hd rest ih =>
    obtain ⟨k2, v2⟩ := hd
    have hnd2 : nodupKeys rest := (List.nodup_cons.mp hnd).2
    by_cases h2 : k2 = k
    · subst h2
      simp [dictGet] at h
      have hmem : k2 ∉ rest.map Prod.fst := (List.nodup_cons.mp hnd).1
      rw [setFields, if_neg (by simp [hk]),
        dictGet_setFields_not_mem _ _ _ hmem, dictGet_setField_self, h]
    · simp [dictGet, h2] at h
      by_cases hid : k2 = "id"
      · simp only [setFields, hid]
        rw [if_pos (by simp)]
        exact ih hnd2 h r
      · simp only [setFields]
        rw [if_neg (by simp [hid])]
        exact ih hnd2 h _

theorem setFields_no_change (d : Row) (r : Row)
    (h : ∀ kv ∈ d, kv.1 ≠ "id" → dictGet r kv.1 = some kv.2) :
    setFields r d = r := by
  induction d with
  | nil => simp [setFields]
  | cons hd rest ih =>
    obtain ⟨k2, v2⟩ := hd
    by_cases hid : k2 = "id"
    · simp only [setFields, hid]
      rw [if_pos (by simp)]
      exact ih (fun kv hm => h kv (List.mem_cons_of_mem _ hm))
    · simp only [setFields]
      rw [if_neg (by simp [hid]),
        setField_eq_of_get _ _ _ (h (k2, v2) (List.mem_cons_self _ _) hid)]
      exact ih (fun kv hm => h kv (List.mem_cons_of_mem _ hm))

theorem dictGet_of_mem_nodup (d : Row) (hnd : nodupKeys d) (k : String)
    (v : PyValue) (hmem : (k, v) ∈ d) : dictGet d k = some v := by
  induction d with
  | nil => simp at hmem
  | cons hd rest ih =>
    obtain ⟨k2, v2⟩ := hd
    have hnd2 : nodupKeys rest := (List.nodup_cons.mp hnd).2
    rcases List.mem_cons.mp hmem with heq | hmem2
    · cases heq
      simp [dictGet]
    · have hk : k2 ≠ k := by
        intro he
        subst he
        exact (List.nodup_cons.mp hnd).1 (List.mem_map.mpr ⟨(k2, v), hmem2, rfl⟩)
      simp [dictGet, hk, ih hnd2 hmem2]

theorem setFields_setFields (d : Row) (hnd : nodupKeys d) (r : Row) :
    setFields (setFields r d) d = setFields r d :=
  setFields_no_change d _ (fun kv hmem hne =>
    dictGet_setFields_mem d hnd kv.1 kv.2 hne
      (dictGet_of_mem_nodup d hnd kv.1 kv.2 hmem) r)

theorem setFields_self (d : Row) (hnd : nodupKeys d) : setFields d d = d :=
  setFields_no_change d d (fun kv hmem _ =>
    dictGet_of_mem_nodup d hnd kv.1 kv.2 hmem)

theorem rowMatchesId_setFields (r d : Row) (idv : PyValue) :
    rowMatchesId (setFields r d) idv = rowMatchesId r idv := by
  simp [rowMatchesId, dictGet_setFields_id]

theorem containsId_cons (row : Row) (rest : Store) (idv : PyValue) :
    containsId (row :: rest) idv =
      (rowMatchesId row idv || containsId rest idv) := by
  simp [containsId]

theorem containsId_append (s t : Store) (idv : PyValue) :
    containsId (s ++ t) idv = (containsId s idv || containsId t idv) := by
  simp [containsId, List.any_append]

theorem containsId_updateFirst (s : Store) (idv : PyValue) (f : Row → Row)
    (hf : ∀ r, rowMatchesId r idv = true → rowMatchesId (f r) idv = true)
    (h : containsId s idv = true) :
    containsId (updateFirst s idv f) idv = true := by
  induction s with
  | nil => simp [containsId] at h
  | cons row rest ih =>
    by_cases hr : rowMatchesId row idv = true
    · rw [updateFirst, if_pos hr, containsId_cons, hf row hr, Bool.true_or]
    · have hr2 : rowMatchesId row idv = false := by
        cases hb : rowMatchesId row idv
        · rfl
        · exact absurd hb hr
      rw [containsId_cons, hr2, Bool.false_or] at h
      rw [updateFirst, if_neg (by simp [hr2]), containsId_cons, ih h,
        Bool.or_true]

theorem updateFirst_twice (s : Store) (idv : PyValue) (f : Row → Row)
    (hf : ∀ r, rowMatchesId r idv = true →
      rowMatchesId (f r) idv = true ∧ f (f r) = f r) :
    updateFirst (updateFirst s idv f) idv f = updateFirst s idv f := by
  induction s with
  | nil => rfl
  | cons row rest ih =>
    by_cases hr : rowMatchesId row idv = true
    · rw [updateFirst, if_pos hr, updateFirst, if_pos ((hf row hr).1),
        (hf row hr).2]
    · rw [updateFirst, if_neg hr, updateFirst, if_neg hr, ih]

theorem updateFirst_append_not_contains (s : Store) (idv : PyValue)
    (data : Row) (f : Row → Row) (h : containsId s idv = false) :
    updateFirst (s ++ [data]) idv f =
      s ++ [if rowMatchesId data idv then f data else data] := by
  induction s with
  | nil => cases hr : rowMatchesId data idv <;> simp [updateFirst, hr]
  | cons row rest ih =>
    rw [containsId_cons, Bool.or_eq_false_iff] at h
    rw [List.cons_append, updateFirst, if_neg (by simp [h.1]),
      ih h.2, List.cons_append]

/-- C4 helper: the reconciler's update branch leaves `id` unchanged and
writes every other mapped field, null included. -/
theorem upsertRow_found (store : Store) (idv : PyValue) (data : Row)
    (h : containsId store idv = true) :
    upsertRow store idv data =
      updateFirst store idv (fun r => setFields r data) := by
  rw [upsertRow, if_pos h]

/-- C6 helper: a second application of the same upsert is the identity. -/
theorem upsertRow_twice (store : Store) (idv : PyValue) (data : Row)
    (hid : dictGet data "id" = some idv) (hnd : nodupKeys data) :
    upsertRow (upsertRow store idv data) idv data =
      upsertRow store idv data := by
  have hmatch : ∀ r, rowMatchesId r idv = true →
      rowMatchesId (setFields r data) idv = true := by
    intro r h
    rw [rowMatchesId_setFields]
    exact h
  by_cases hc : containsId store idv = true
  · have hu1 : upsertRow store idv data =
        updateFirst store idv (fun r => setFields r data) := by
      rw [upsertRow, if_pos hc]
    rw [hu1]
    have hc2 : containsId (updateFirst store idv
        (fun r => setFields r data)) idv = true :=
      containsId_updateFirst _ _ _ hmatch hc
    rw [upsertRow, if_pos hc2]
    exact updateFirst_twice _ _ _
      (fun r h => ⟨hmatch r h, setFields_setFields data hnd r⟩)
  · have hu1 : upsertRow store idv data = store ++ [data] := by
      rw [upsertRow, if_neg hc]
    rw [hu1]
    have hcf : containsId store idv = false := by
      cases hb : containsId store idv
      · rfl
      · exact absurd hb hc
    have hdata : rowMatchesId data idv = true := by
      simp [rowMatchesId, hid, pyEq_refl]
    have hc2 : containsId (store ++ [data]) idv = true := by
      rw [containsId_append, hcf, Bool.false_or, containsId_cons, hdata,
        Bool.true_or]
    rw [upsertRow, if_pos hc2, updateFirst_append_not_contains _ _ _ _ hcf,
      if_pos hdata, setFields_self data hnd]

/-- The three synchronized entity types. -/
inductive EntityKind where
  | contacts
  | accounts
  | intern_roles
deriving DecidableEq, Repr

/-- The tracker key of an entity type. -/
def entityName : EntityKind → String
  | .contacts => "contacts"
  | .accounts => "accounts"
  | .intern_roles => "intern_roles"

/-- The orchestrator entry point of an entity type. -/
def runEntity : EntityKind → Bool → List RemoteRecord → PyDatetime →
    Store → List SyncTrackerRow → RunResult
  | .contacts => syncContacts
  | .accounts => syncAccounts
  | .intern_roles => syncInternRoles

theorem applyBatch_cons (mapper : RemoteRecord → Except String Row)
    (store : Store) (c : RemoteRecord) (rest : List RemoteRecord) :
    applyBatch mapper store (c :: rest) =
      match dictGet c "id" with
      | Option.none => .error "KeyError: id"
      | some idv =>
        match mapper c with
        | .error e => .error e
        | .ok row => applyBatch mapper (upsertRow store idv row) rest := by
  cases hidc : dictGet c "id" with
  | none => simp only [applyBatch, hidc]; rfl
  | some v =>
    cases hmap : mapper c with
    | error e => simp only [applyBatch, hidc, hmap]; rfl
    | ok row => simp only [applyBatch, hidc, hmap]; rfl

theorem applyBatch_error_of_missing_id (mapper : RemoteRecord → Except String Row)
    (fetched : List RemoteRecord) (store : Store)
    (h : ∃ r ∈ fetched, dictGet r "id" = Option.none) :
    ∃ msg, applyBatch mapper store fetched = .error msg := by
  induction fetched generalizing store with
  | nil => simp at h
  | cons c rest ih =>
    rw [applyBatch_cons]
    cases hidc : dictGet c "id" with
    | none => exact ⟨"KeyError: id", rfl⟩
    | some v =>
      have h2 : ∃ r ∈ rest, dictGet r "id" = Option.none := by
        rcases h with ⟨r, hmem, hr⟩
        rcases List.mem_cons.mp hmem with heq | hmem2
        · exact absurd hr (by rw [heq, hidc]; simp)
        · exact ⟨r, hmem2, hr⟩
      cases hmap : mapper c with
      | error e => exact ⟨e, rfl⟩
      | ok row => exact ih (upsertRow store v row) h2

theorem get_sync_tracker_update (e : String) (ts : PyDatetime) (n : Int)
    (now : PyDatetime) (trackers : List SyncTrackerRow) :
    (get_sync_tracker (update_sync_tracker e ts n now trackers) e).map
        (fun t => (t.last_sync_timestamp, t.records_synced)) =
      some (some ts, n) := by
  induction trackers with
  | nil => simp [update_sync_tracker, get_sync_tracker]
  | cons t rest ih =>
    by_cases h : t.entity_type = e
    · simp [update_sync_tracker, h, get_sync_tracker]
    · rw [update_sync_tracker, if_neg (by simp [h])]
      rw [get_sync_tracker] at ih ⊢
      rw [List.find?_cons_of_neg _ (by simp [h])]
      exact ih

/-- A record's `Modified_Time` value parses to the datetime `m`. -/
def parsedMT (r : RemoteRecord) (m : PyDatetime) : Prop :=
  ∃ s, dictGet r "Modified_Time" = some (.str s) ∧
    fromisoformat (strReplace s "Z" "+00:00") = some m

theorem parsedMT_unique (r : RemoteRecord) (m m2 : PyDatetime)
    (h : parsedMT r m) (h2 : parsedMT r m2) : m = m2 := by
  obtain ⟨s, hs, hp⟩ := h
  obtain ⟨s2, hs2, hp2⟩ := h2
  rw [hs] at hs2
  cases hs2
  rw [hp] at hp2
  cases hp2
  rfl

theorem latestScan_cons_str (rest : List RemoteRecord) (r : RemoteRecord)
    (acc : Option PyDatetime) (s : String)
    (hmt : dictGet r "Modified_Time" = some (.str s)) :
    latestScan (r :: rest) acc =
      if s == "" then latestScan rest acc
      else
        match fromisoformat (strReplace s "Z" "+00:00") with
        | Option.none => latestScan rest acc
        | some m =>
          match acc with
          | Option.none => latestScan rest (some m)
          | some lt =>
            match pyGT m lt with
            | some true => latestScan rest (some m)
            | some false => latestScan rest acc
            | Option.none => latestScan rest acc := by
  simp only [latestScan, hmt]

theorem latestScan_cons_skip (rest : List RemoteRecord) (r : RemoteRecord)
    (acc : Option PyDatetime)
    (hmt : ∀ s, dictGet r "Modified_Time" ≠ some (.str s))
    (hfalsy : pyTruthy (dictGet r "Modified_Time") = false) :
    latestScan (r :: rest) acc = latestScan rest acc := by
  cases hv : dictGet r "Modified_Time" with
  | none => simp [latestScan, hv, pyTruthy]
  | some v =>
    rw [hv] at hfalsy
    cases v with
    | str s => exact absurd hv (hmt s)
    | _ => simp only [latestScan, hv, hfalsy]; rfl

theorem latestScan_cons_error (rest : List RemoteRecord) (r : RemoteRecord)
    (acc : Option PyDatetime)
    (hmt : ∀ s, dictGet r "Modified_Time" ≠ some (.str s))
    (htruthy : pyTruthy (dictGet r "Modified_Time") = true) :
    latestScan (r :: rest) acc =
      .error "AttributeError: no attribute replace" := by
  cases hv : dictGet r "Modified_Time" with
  | none => rw [hv] at htruthy; simp [pyTruthy] at htruthy
  | some v =>
    rw [hv] at htruthy
    cases v with
    | str s => exact absurd hv (hmt s)
    | _ => simp only [latestScan, hv, htruthy]; rfl

theorem latestScan_ok_some_mem (rs : List RemoteRecord)
    (acc : Option PyDatetime) (m : PyDatetime)
    (h : latestScan rs acc = .ok (some m)) :
    acc = some m ∨ ∃ r ∈ rs, parsedMT r m := by
  induction rs generalizing acc with
  | nil =>
    rw [latestScan] at h
    cases h
    exact .inl rfl
  | cons r rest ih =>
    have wrap : ∀ acc2 : Option PyDatetime, acc2 = acc →
        latestScan rest acc2 = .ok (some m) →
        acc = some m ∨ ∃ r2 ∈ r :: rest, parsedMT r2 m := by
      intro acc2 he h2
      rcases ih _ h2 with ha | ⟨r2, hm2, hp2⟩
      · exact .inl (he ▸ ha)
      · exact .inr ⟨r2, List.mem_cons_of_mem _ hm2, hp2⟩
    by_cases hstr : ∃ s, dictGet r "Modified_Time" = some (.str s)
    · obtain ⟨s, hmt⟩ := hstr
      rw [latestScan_cons_str rest r acc s hmt] at h
      by_cases hs : s = ""
      · rw [if_pos (by simp [hs])] at h
        exact wrap acc rfl h
      · rw [if_neg (by simp [hs])] at h
        cases hp : fromisoformat (strReplace s "Z" "+00:00") with
        | none =>
          rw [hp] at h
          dsimp only at h
          exact wrap acc rfl h
        | some m2 =>
          rw [hp] at h
          dsimp only at h
          have head : parsedMT r m2 := ⟨s, hmt, hp⟩
          clear wrap
          cases acc with
          | none =>
            dsimp only at h
            rcases ih _ h with ha | ⟨r2, hm2, hp2⟩
            · cases ha
              exact .inr ⟨r, List.mem_cons_self _ _, head⟩
            · exact .inr ⟨r2, List.mem_cons_of_mem _ hm2, hp2⟩
          | some lt =>
            dsimp only at h
            have recover : ∀ acc2 : Option PyDatetime,
                (acc2 = some m2 ∨ acc2 = some lt) →
                latestScan rest acc2 = .ok (some m) →
                some lt = some m ∨ ∃ r2 ∈ r :: rest, parsedMT r2 m := by
              intro acc2 hacc2 hrun
              rcases ih _ hrun with ha | ⟨r2, hm2, hp2⟩
              · rcases hacc2 with h2 | h2
                · rw [h2] at ha
                  cases ha
                  exact .inr ⟨r, List.mem_cons_self _ _, head⟩
                · exact .inl (h2 ▸ ha)
              · exact .inr ⟨r2, List.mem_cons_of_mem _ hm2, hp2⟩
            cases hgt : pyGT m2 lt with
            | none =>
              rw [hgt] at h
              dsimp only at h
              exact recover _ (.inr rfl) h
            | some b =>
              cases b with
              | true =>
                rw [hgt] at h
                dsimp only at h
                exact recover _ (.inl rfl) h
              | false =>
                rw [hgt] at h
                dsimp only at h
                exact recover _ (.inr rfl) h
    · have hmt : ∀ s, dictGet r "Modified_Time" ≠ some (.str s) := by
        intro s hc
        exact hstr ⟨s, hc⟩
      cases htr : pyTruthy (dictGet r "Modified_Time") with
      | false =>
        rw [latestScan_cons_skip rest r acc hmt htr] at h
        exact wrap acc rfl h
      | true =>
        rw [latestScan_cons_error rest r acc hmt htr] at h
        cases h

theorem applyWebhookField_preserve (info : List (String × PyValue))
    (k : String) (row : Row) (f : String)
    (hfalsy : pyTruthy (dictGet info f) = false) :
    dictGet (applyWebhookField info k row) f = dictGet row f := by
  by_cases hk : k = f
  · subst hk
    rw [applyWebhookField, if_neg (by simp [hfalsy])]
  · rw [applyWebhookField]
    by_cases ht : pyTruthy (dictGet info k) = true
    · rw [if_pos ht, dictGet_setField_ne _ _ _ _ hk]
    · rw [if_neg ht]

/-- Sample datetimes and rows for concrete runs. -/
def tEarly : PyDatetime := ⟨2024, 1, 1, 0, 0, 0, some 0⟩

def tLate : PyDatetime := ⟨2024, 5, 5, 5, 5, 5, some 0⟩

def contactRowEx : Row :=
  [("id", PyValue.str "1"), ("updated_time", PyValue.dt tEarly),
   ("email", PyValue.str "x@y.z")]

/-- C4: for a mapped record matching an existing row, the bulk reconciler's
update branch overwrites every field of the mapped data except `id` —
including a null mapped value over a non-null stored one — and never
modifies the stored `id`. -/
theorem reconciler_full_overwrite (row data : Row) (f : String) (v : PyValue)
    (store : Store) (idv : PyValue) :
    (dictGet (setFields row data) "id" = dictGet row "id") ∧
    (f ≠ "id" → nodupKeys data → dictGet data f = some v →
      dictGet (setFields row data) f = some v) ∧
    (containsId store idv = true →
      upsertRow store idv data =
        updateFirst store idv (fun r => setFields r data)) := by
  refine ⟨dictGet_setFields_id data row, ?_, upsertRow_found store idv data⟩
  intro hf hnd hget
  exact dictGet_setFields_mem data hnd f v hf hget row

/-- C4 witness: a null mapped `email` overwrites a non-null stored one and
the stored `id` survives. -/
theorem reconciler_full_overwrite_witness :
    dictGet (setFields contactRowEx
      [("id", PyValue.str "1"), ("email", PyValue.none)]) "email" =
        some PyValue.none ∧
    dictGet (setFields contactRowEx
      [("id", PyValue.str "1"), ("email", PyValue.none)]) "id" =
        some (PyValue.str "1") :=
  ⟨(reconciler_full_overwrite contactRowEx
      [("id", PyValue.str "1"), ("email", PyValue.none)] "email" PyValue.none
      [] PyValue.none).2.1 (by decide) (by unfold nodupKeys; decide) rfl,
   ((reconciler_full_overwrite contactRowEx
      [("id", PyValue.str "1"), ("email", PyValue.none)] "email" PyValue.none
      [] PyValue.none).1).trans rfl⟩

/-- C6: the reconciler's upsert of one mapped record is idempotent: a second
application leaves the store unchanged and creates no further row for the
identifier. -/
theorem upsert_idempotent (store : Store) (idv : PyValue) (data : Row)
    (hid : dictGet data "id" = some idv) (hnd : nodupKeys data) :
    upsertRow (upsertRow store idv data) idv data = upsertRow store idv data ∧
    countId (upsertRow (upsertRow store idv data) idv data) idv =
      countId (upsertRow store idv data) idv := by
  have h := upsertRow_twice store idv data hid hnd
  exact ⟨h, by rw [h]⟩

/-- C6 witness: re-upserting a record into an empty store is a no-op on the
second application. -/
theorem upsert_idempotent_witness :
    upsertRow (upsertRow [] (PyValue.str "1")
        [("id", PyValue.str "1"), ("email", PyValue.none)]) (PyValue.str "1")
        [("id", PyValue.str "1"), ("email", PyValue.none)] =
      upsertRow [] (PyValue.str "1")
        [("id", PyValue.str "1"), ("email", PyValue.none)] ∧
    countId (upsertRow (upsertRow [] (PyValue.str "1")
        [("id", PyValue.str "1"), ("email", PyValue.none)]) (PyValue.str "1")
        [("id", PyValue.str "1"), ("email", PyValue.none)]) (PyValue.str "1") =
      countId (upsertRow [] (PyValue.str "1")
        [("id", PyValue.str "1"), ("email", PyValue.none)]) (PyValue.str "1") :=
  upsert_idempotent [] (PyValue.str "1")
    [("id", PyValue.str "1"), ("email", PyValue.none)] rfl
    (by unfold nodupKeys; decide)

/-- C5 (amended): the webhook patch preserves every column other than
`updated_time` whose payload entry is absent or falsy; `updated_time`
itself is unconditionally overwritten with the current time. -/
theorem webhook_patch_preserves_except_updated_time
    (info : List (String × PyValue)) (now : PyDatetime) (row : Row)
    (f : String) (hf : f ≠ "updated_time")
    (hfalsy : pyTruthy (dictGet info f) = false) :
    dictGet (applyWebhookPatch info now row) f = dictGet row f ∧
    dictGet (applyWebhookPatch info now row) "updated_time" =
      some (PyValue.dt now) := by
  constructor
  · rw [applyWebhookPatch]
    rw [dictGet_setField_ne _ _ _ _ (fun he => hf he.symm)]
    rw [applyWebhookField_preserve _ _ _ _ hfalsy,
      applyWebhookField_preserve _ _ _ _ hfalsy,
      applyWebhookField_preserve _ _ _ _ hfalsy,
      applyWebhookField_preserve _ _ _ _ hfalsy,
      applyWebhookField_preserve _ _ _ _ hfalsy]
  · rw [applyWebhookPatch, dictGet_setField_self]

/-- C5 witness: a payload omitting `email` leaves the stored `email`
untouched while `updated_time` is rewritten. -/
theorem webhook_patch_preserves_witness :
    dictGet (applyWebhookPatch [("id", PyValue.str "1")] tLate contactRowEx)
        "email" = some (PyValue.str "x@y.z") ∧
    dictGet (applyWebhookPatch [("id", PyValue.str "1")] tLate contactRowEx)
        "updated_time" = some (PyValue.dt tLate) :=
  ⟨(webhook_patch_preserves_except_updated_time [("id", PyValue.str "1")]
      tLate contactRowEx "email" (by decide) rfl).1.trans rfl,
   (webhook_patch_preserves_except_updated_time [("id", PyValue.str "1")]
      tLate contactRowEx "email" (by decide) rfl).2⟩

/-- C5 counterexample: the claim as stated — every field the payload omits
retains its value — fails: `updated_time` is overwritten with the current
time by `update_local_contact` even when the payload carries nothing but
the id. -/
theorem webhook_patch_updated_time_cex :
    update_local_contact [contactRowEx] [("id", PyValue.str "1")] tLate =
      ([[("id", PyValue.str "1"), ("updated_time", PyValue.dt tLate),
         ("email", PyValue.str "x@y.z")]], true) ∧
    dictGet contactRowEx "updated_time" = some (PyValue.dt tEarly) ∧
    tEarly ≠ tLate :=
  ⟨rfl, rfl, by decide⟩

/-- C10: a webhook update whose contact id is missing from the payload or
matches no stored row leaves the store unchanged and returns `false`; a
found contact is patched and yields `true`. -/
theorem webhook_update_missing_contact (store : Store)
    (info : List (String × PyValue)) (now : PyDatetime) :
    (dictGet info "id" = Option.none →
      update_local_contact store info now = (store, false)) ∧
    (∀ idv, dictGet info "id" = some idv → containsId store idv = false →
      update_local_contact store info now = (store, false)) ∧
    (∀ idv, dictGet info "id" = some idv → containsId store idv = true →
      update_local_contact store info now =
        (updateFirst store idv (applyWebhookPatch info now), true)) := by
  refine ⟨?_, ?_, ?_⟩
  · intro h
    rw [update_local_contact, h]
  · intro idv h hc
    rw [update_local_contact, h]
    dsimp only
    rw [if_neg (by simp [hc])]
  · intro idv h hc
    rw [update_local_contact, h]
    dsimp only
    rw [if_pos hc]

/-- C10 witness: an unknown id and a missing id both leave the store
unchanged with `false`; a known id returns `true`. -/
theorem webhook_update_missing_contact_witness :
    update_local_contact [contactRowEx] [("id", PyValue.str "9")] tLate =
      ([contactRowEx], false) ∧
    update_local_contact [contactRowEx] [("note", PyValue.str "x")] tLate =
      ([contactRowEx], false) ∧
    (update_local_contact [contactRowEx] [("id", PyValue.str "1")] tLate).2 =
      true :=
  ⟨(webhook_update_missing_contact [contactRowEx]
      [("id", PyValue.str "9")] tLate).2.1 (PyValue.str "9") rfl rfl,
   (webhook_update_missing_contact [contactRowEx]
      [("note", PyValue.str "x")] tLate).1 rfl,
   by rw [(webhook_update_missing_contact [contactRowEx]
      [("id", PyValue.str "1")] tLate).2.2 (PyValue.str "1") rfl rfl]⟩

theorem strEndsWith_append (a suf : String) :
    strEndsWith (a ++ suf) suf = true := by
  simp only [strEndsWith, decide_eq_true_eq]
  exact List.suffix_append _ _

theorem strDropRight_append (a suf : String) :
    strDropRight (a ++ suf) suf.data.length = a := by
  have h1 : (a ++ suf).data = a.data ++ suf.data := rfl
  rw [strDropRight, h1, List.length_append, Nat.add_sub_cancel, List.take_left]

/-- A tracker timestamp with offset +05:30. -/
def tsIST : PyDatetime := ⟨2024, 1, 15, 10, 0, 0, some 330⟩

/-- C3 counterexample: the built filter is not in the colon-containing
`+HH:MM` form for every stored timestamp — an offset of +05:30 keeps
`strftime`'s colonless `+0530`, since only a bare `+0000` suffix is
rewritten. -/
theorem criteria_offset_cex :
    build_incremental_criteria (some tsIST) =
      some "(Modified_Time:greater_than:2024-01-15T10:00:00+0530)" ∧
    "(Modified_Time:greater_than:2024-01-15T10:00:00+0530)" ≠
      "(Modified_Time:greater_than:2024-01-15T10:00:00+05:30)" :=
  ⟨rfl, by decide⟩

/-- C3 (amended): for a naive or UTC tracker timestamp the built filter is
the strictly-greater `Modified_Time` criteria with the colon-normalized
`+00:00` offset (naive treated as UTC); with no timestamp there is no
filter, and with no tracker (or an absent timestamp) the orchestrators
fetch without criteria. -/
theorem criteria_utc_colon_form (ts : PyDatetime)
    (h : ts.tz = Option.none ∨ ts.tz = some 0) :
    build_incremental_criteria (some ts) =
      some ("(Modified_Time:greater_than:" ++ (datePart ts ++ "+00:00") ++ ")") ∧
    build_incremental_criteria Option.none = Option.none ∧
    (∀ trackers incr, get_sync_tracker trackers "contacts" = Option.none →
      contactsFetchCriteria incr trackers = Option.none) ∧
    (∀ trackers incr t, get_sync_tracker trackers "contacts" = some t →
      t.last_sync_timestamp = Option.none →
      contactsFetchCriteria incr trackers = Option.none) ∧
    (∀ trackers incr e, get_sync_tracker trackers e = Option.none →
      accountsFetchCriteria incr e trackers = Option.none) ∧
    (∀ trackers incr e t, get_sync_tracker trackers e = some t →
      t.last_sync_timestamp = Option.none →
      accountsFetchCriteria incr e trackers = Option.none) := by
  have key : strftimeISOz
      (if ts.tz = Option.none then { ts with tz := some 0 } else ts) =
      datePart ts ++ "+0000" := by
    rcases h with h0 | h0
    · rw [if_pos h0]
      rfl
    · rw [if_neg (by simp [h0]), strftimeISOz, h0]
      rfl
  refine ⟨?_, rfl, ?_, ?_, ?_, ?_⟩
  · have hdrop : strDropRight (datePart ts ++ "+0000") 5 = datePart ts :=
      strDropRight_append (datePart ts) "+0000"
    simp only [build_incremental_criteria]
    rw [key, if_pos (strEndsWith_append (datePart ts) "+0000"), hdrop,
      String.append_assoc]
  · intro trackers incr hno
    rw [contactsFetchCriteria]
    cases incr <;> simp [hno]
  · intro trackers incr t hsome hts
    rw [contactsFetchCriteria]
    cases incr <;> simp [hsome, hts]
  · intro trackers incr e hno
    rw [accountsFetchCriteria]
    cases incr <;> simp [hno]
  · intro trackers incr e t hsome hts
    rw [accountsFetchCriteria]
    cases incr <;> simp [hsome, hts, build_incremental_criteria]

/-- C3 witness: the spec's example timestamp 2024-01-15T10:00:00+00:00
yields the colon-form criteria, and missing trackers yield no criteria. -/
theorem criteria_utc_colon_form_witness :
    build_incremental_criteria (some ⟨2024, 1, 15, 10, 0, 0, some 0⟩) =
      some ("(Modified_Time:greater_than:" ++
        (datePart ⟨2024, 1, 15, 10, 0, 0, some 0⟩ ++ "+00:00") ++ ")") ∧
    build_incremental_criteria Option.none = Option.none ∧
    contactsFetchCriteria true [] = Option.none :=
  ⟨(criteria_utc_colon_form ⟨2024, 1, 15, 10, 0, 0, some 0⟩ (.inr rfl)).1,
   (criteria_utc_colon_form ⟨2024, 1, 15, 10, 0, 0, some 0⟩ (.inr rfl)).2.1,
   (criteria_utc_colon_form ⟨2024, 1, 15, 10, 0, 0, some 0⟩
      (.inr rfl)).2.2.1 [] true rfl⟩

theorem exceptBindOk {α β : Type} (x : Except String α)
    (f : α → Except String β) (b : β) (h : x >>= f = .ok b) :
    ∃ a, x = .ok a ∧ f a = .ok b := by
  cases x with
  | error e => exact absurd h (by intro hc; exact Except.noConfusion hc)
  | ok a => exact ⟨a, rfl, h⟩

theorem exceptOkBind {α β : Type} (a : α) (f : α → Except String β) :
    (Except.ok a >>= f : Except String β) = f a := rfl

/-- Projections of a successful contact pre-mapping: each exception-prone
sub-expression evaluated to the recorded value. -/
theorem mapContactPre_ok (c : RemoteRecord) (p : ContactPre)
    (h : mapContactPre c = .ok p) :
    extract_id (dictGet c "Account_Name") = .ok p.account_id ∧
    dumps_if_truthy (dictGet c "$field_states") = .ok p.field_states ∧
    extract_name (dictGet c "Role_Owner") = .ok p.role_owner ∧
    dumps_if_truthy (dictGet c "$approval") = .ok p.approval ∧
    dumps_if_truthy (dictGet c "$review_process") = .ok p.review_process ∧
    extract_id (dictGet c "Layout") = .ok p.layout_id ∧
    get_nested c "Layout" "display_label" = .ok p.layout_display_label ∧
    get_nested c "Layout" "name" = .ok p.layout_name ∧
    list_to_json (dictGet c "Visa_Alt_Options") = .ok p.visa_alt_options ∧
    extract_name (dictGet c "Interviewer") = .ok p.interviewer ∧
    list_to_json (dictGet c "Rating") = .ok p.rating ∧
    dumps_if_truthy (dictGet c "$review") = .ok p.review ∧
    extract_name (dictGet c "Community_Owner") = .ok p.community_owner ∧
    extract_email (dictGet c "Created_By") = .ok p.created_by_email ∧
    extract_name (dictGet c "Account_Name") = .ok p.account_name ∧
    list_to_json (dictGet c "Tag") = .ok p.tag ∧
    extract_name (dictGet c "Visa_Owner") = .ok p.visa_owner := by
  rw [mapContactPre] at h
  obtain ⟨x1, h1, h⟩ := exceptBindOk _ _ _ h
  obtain ⟨x2, h2, h⟩ := exceptBindOk _ _ _ h
  obtain ⟨x3, h3, h⟩ := exceptBindOk _ _ _ h
  obtain ⟨x4, h4, h⟩ := exceptBindOk _ _ _ h
  obtain ⟨x5, h5, h⟩ := exceptBindOk _ _ _ h
  obtain ⟨x6, h6, h⟩ := exceptBindOk _ _ _ h
  obtain ⟨x7, h7, h⟩ := exceptBindOk _ _ _ h
  obtain ⟨x8, h8, h⟩ := exceptBindOk _ _ _ h
  obtain ⟨x9, h9, h⟩ := exceptBindOk _ _ _ h
  obtain ⟨x10, h10, h⟩ := exceptBindOk _ _ _ h
  obtain ⟨x11, h11, h⟩ := exceptBindOk _ _ _ h
  obtain ⟨x12, h12, h⟩ := exceptBindOk _ _ _ h
  obtain ⟨x13, h13, h⟩ := exceptBindOk _ _ _ h
  obtain ⟨x14, h14, h⟩ := exceptBindOk _ _ _ h
  obtain ⟨x15, h15, h⟩ := exceptBindOk _ _ _ h
  obtain ⟨x16, h16, h⟩ := exceptBindOk _ _ _ h
  obtain ⟨x17, h17, h⟩ := exceptBindOk _ _ _ h
  injection h with h
  subst h
  exact ⟨h1, h2, h3, h4, h5, h6, h7, h8, h9, h10, h11, h12, h13, h14, h15,
    h16, h17⟩

/-- A successful contact mapping yields exactly the `contact_data` row for
the record's id and pre-computed sub-expressions. -/
theorem mapContact_ok (c : RemoteRecord) (row : Row)
    (h : mapContact c = .ok row) :
    ∃ idv p, dictGet c "id" = some idv ∧ mapContactPre c = .ok p ∧
      row = contactRowOf c idv p := by
  rw [mapContact] at h
  cases hid : dictGet c "id" with
  | none =>
    rw [hid] at h
    exact absurd h (by intro hc; exact Except.noConfusion hc)
  | some v =>
    rw [hid] at h
    have h2 : (mapContactPre c >>= fun p => pure (contactRowOf c v p)) =
        Except.ok row := h
    obtain ⟨p, hp, h3⟩ := exceptBindOk _ _ _ h2
    injection h3 with h3
    exact ⟨v, p, rfl, hp, h3.symm⟩

/-- C7: field-kind mapping policies of the entity mapper: absent or
unparsable datetimes (after Z-normalization) map to null without raising;
empty or absent lists map to null, not the text `[]`; an absent boolean
maps to `false`, not null. -/
theorem mapper_field_kind_policies (c : RemoteRecord) (s : String)
    (row : Row) :
    (parse_datetime Option.none = Option.none) ∧
    (parse_datetime (some PyValue.none) = Option.none) ∧
    (fromisoformat (strReplace s "Z" "+00:00") = Option.none →
      parse_datetime (some (PyValue.str s)) = Option.none) ∧
    (list_to_json Option.none = .ok Option.none) ∧
    (list_to_json (some (PyValue.list [])) = .ok Option.none) ∧
    (mapContact c = .ok row → dictGet c "Modified_Time" = Option.none →
      dictGet row "updated_time" = some PyValue.none) ∧
    (mapContact c = .ok row → dictGet c "Tag" = Option.none →
      dictGet row "tag" = some PyValue.none) ∧
    (mapContact c = .ok row → dictGet c "Do_Not_Contact" = Option.none →
      dictGet row "do_not_contact" = some (PyValue.bool false)) := by
  refine ⟨rfl, rfl, ?_, rfl, rfl, ?_, ?_, ?_⟩
  · intro hp
    by_cases hs : s = ""
    · subst hs
      rfl
    · rw [parse_datetime, if_pos (by simp [pyTruthy, hs])]
      exact hp
  · intro hmap habs
    obtain ⟨idv, p, hid, hpre, hrow⟩ := mapContact_ok c row hmap
    subst hrow
    have base : dictGet (contactRowOf c idv p) "updated_time" =
        some (optDt (parse_datetime (dictGet c "Modified_Time"))) := rfl
    rw [base, habs]
    rfl
  · intro hmap habs
    obtain ⟨idv, p, hid, hpre, hrow⟩ := mapContact_ok c row hmap
    subst hrow
    have base : dictGet (contactRowOf c idv p) "tag" =
        some (optV p.tag) := rfl
    have htag : list_to_json (dictGet c "Tag") = .ok p.tag :=
      (mapContactPre_ok c p hpre).2.2.2.2.2.2.2.2.2.2.2.2.2.2.2.1
    rw [habs] at htag
    have hptag : p.tag = Option.none := (Except.ok.inj htag).symm
    rw [base, hptag]
    rfl
  · intro hmap habs
    obtain ⟨idv, p, hid, hpre, hrow⟩ := mapContact_ok c row hmap
    subst hrow
    have base : dictGet (contactRowOf c idv p) "do_not_contact" =
        some (get_default_false c "Do_Not_Contact") := rfl
    rw [base]
    simp only [get_default_false, habs]

/-- A contact record carrying nothing but its id, and its mapped row. -/
def cMini : RemoteRecord := [("id", PyValue.str "7")]

def rowMini : Row :=
  contactRowOf cMini (PyValue.str "7")
    ⟨Option.none, Option.none, Option.none, Option.none, Option.none,
     Option.none, Option.none, Option.none, Option.none, Option.none,
     Option.none, Option.none, Option.none, Option.none, Option.none,
     Option.none, Option.none⟩

/-- C7 witness: on a record with every non-id field absent, the datetime,
list and boolean policies are visible in the mapped row. -/
theorem mapper_field_kind_policies_witness :
    parse_datetime (some (PyValue.str "garbage")) = Option.none ∧
    dictGet rowMini "updated_time" = some PyValue.none ∧
    dictGet rowMini "tag" = some PyValue.none ∧
    dictGet rowMini "do_not_contact" = some (PyValue.bool false) :=
  ⟨(mapper_field_kind_policies cMini "garbage" rowMini).2.2.1 rfl,
   (mapper_field_kind_policies cMini "garbage" rowMini).2.2.2.2.2.1 rfl rfl,
   (mapper_field_kind_policies cMini "garbage" rowMini).2.2.2.2.2.2.1 rfl rfl,
   (mapper_field_kind_policies cMini "garbage" rowMini).2.2.2.2.2.2.2 rfl rfl⟩

/-- Whether a value is a Python dict. -/
def isDictV : Option PyValue → Bool
  | some (.dict _) => true
  | _ => false

/-- A nested-reference value that `extract_id`-style helpers accept without
raising: a dict, or anything falsy. -/
def refOkB (ov : Option PyValue) : Bool := isDictV ov || !pyTruthy ov

/-- A value `json.dumps` accepts when truthy. -/
def serializableB (ov : Option PyValue) : Bool :=
  match ov with
  | some v => !pyTruthy (some v) || (dumpsV v).isSome
  | Option.none => true

theorem pyTruthy_false_of_not_true (ov : Option PyValue)
    (h : ¬pyTruthy ov = true) : pyTruthy ov = false := by
  cases hb : pyTruthy ov
  · rfl
  · exact absurd hb h

theorem refOk_cases (ov : Option PyValue) (h : refOkB ov = true) :
    pyTruthy ov = false ∨ ∃ fs, ov = some (PyValue.dict fs) := by
  cases ov with
  | none => exact .inl rfl
  | some v =>
    cases v with
    | dict fs => exact .inr ⟨fs, rfl⟩
    | none => exact .inl rfl
    | str s => exact .inl (by simpa [refOkB, isDictV] using h)
    | int n => exact .inl (by simpa [refOkB, isDictV] using h)
    | bool b => exact .inl (by simpa [refOkB, isDictV] using h)
    | dt d => exact .inl (by simpa [refOkB, isDictV] using h)
    | list xs => exact .inl (by simpa [refOkB, isDictV] using h)

theorem serializable_cases (ov : Option PyValue) (h : serializableB ov = true) :
    pyTruthy ov = false ∨ ∃ v s, ov = some v ∧ dumpsV v = some s := by
  cases ov with
  | none => exact .inl rfl
  | some v =>
    by_cases ht : pyTruthy (some v) = true
    · right
      rw [serializableB, ht] at h
      simp only [Bool.not_true, Bool.false_or] at h
      obtain ⟨s, hs⟩ := Option.isSome_iff_exists.mp h
      exact ⟨v, s, rfl, hs⟩
    · exact .inl (pyTruthy_false_of_not_true _ ht)

theorem extract_id_ok (ov : Option PyValue) (h : refOkB ov = true) :
    ∃ x, extract_id ov = .ok x := by
  rcases refOk_cases ov h with hf | ⟨fs, rfl⟩
  · exact ⟨Option.none, by simp [extract_id, hf]⟩
  · by_cases ht : pyTruthy (some (PyValue.dict fs)) = true
    · exact ⟨dictGet fs "id", by simp [extract_id, ht]⟩
    · exact ⟨Option.none,
        by simp [extract_id, pyTruthy_false_of_not_true _ ht]⟩

theorem extract_name_ok (ov : Option PyValue) (h : refOkB ov = true) :
    ∃ x, extract_name ov = .ok x := by
  rcases refOk_cases ov h with hf | ⟨fs, rfl⟩
  · exact ⟨Option.none, by simp [extract_name, hf]⟩
  · by_cases ht : pyTruthy (some (PyValue.dict fs)) = true
    · exact ⟨dictGet fs "name", by simp [extract_name, ht]⟩
    · exact ⟨Option.none,
        by simp [extract_name, pyTruthy_false_of_not_true _ ht]⟩

theorem extract_email_ok (ov : Option PyValue) (h : refOkB ov = true) :
    ∃ x, extract_email ov = .ok x := by
  rcases refOk_cases ov h with hf | ⟨fs, rfl⟩
  · exact ⟨Option.none, by simp [extract_email, hf]⟩
  · by_cases ht : pyTruthy (some (PyValue.dict fs)) = true
    · exact ⟨dictGet fs "email", by simp [extract_email, ht]⟩
    · exact ⟨Option.none,
        by simp [extract_email, pyTruthy_false_of_not_true _ ht]⟩

theorem get_nested_ok (c : RemoteRecord) (key sub : String)
    (h : refOkB (dictGet c key) = true) :
    ∃ x, get_nested c key sub = .ok x := by
  rcases refOk_cases _ h with hf | ⟨fs, hv⟩
  · exact ⟨Option.none, by simp [get_nested, hf]⟩
  · by_cases ht : pyTruthy (dictGet c key) = true
    · have ht2 : pyTruthy (some (PyValue.dict fs)) = true := hv ▸ ht
      exact ⟨dictGet fs sub, by simp [get_nested, hv, ht2]⟩
    · exact ⟨Option.none,
        by simp [get_nested, pyTruthy_false_of_not_true _ ht]⟩

theorem list_to_json_ok (ov : Option PyValue) (h : serializableB ov = true) :
    ∃ x, list_to_json ov = .ok x := by
  rcases serializable_cases ov h with hf | ⟨v, s, rfl, hs⟩
  · exact ⟨Option.none, by simp [list_to_json, hf]⟩
  · by_cases ht : pyTruthy (some v) = true
    · exact ⟨some (.str s), by simp [list_to_json, ht, hs]⟩
    · exact ⟨Option.none,
        by simp [list_to_json, pyTruthy_false_of_not_true _ ht]⟩

theorem dumps_if_truthy_ok (ov : Option PyValue)
    (h : serializableB ov = true) : ∃ x, dumps_if_truthy ov = .ok x := by
  rcases serializable_cases ov h with hf | ⟨v, s, rfl, hs⟩
  · exact ⟨Option.none, by simp [dumps_if_truthy, hf]⟩
  · by_cases ht : pyTruthy (some v) = true
    · exact ⟨some (.str s), by simp [dumps_if_truthy, ht, hs]⟩
    · exact ⟨Option.none,
        by simp [dumps_if_truthy, pyTruthy_false_of_not_true _ ht]⟩

/-- A record whose id is present but whose `Account_Name` is a truthy
non-dict value. -/
def cBadRef : RemoteRecord :=
  [("id", PyValue.str "1"), ("Account_Name", PyValue.str "Acme")]

/-- C8 counterexample: a malformed value in a field other than the
identifier can abort the record after all — a truthy non-dict
`Account_Name` raises `AttributeError` inside `extract_id`, failing the
whole run. -/
theorem mapper_nonid_abort_cex :
    dictGet cBadRef "id" = some (PyValue.str "1") ∧
    mapContact cBadRef = .error "AttributeError: no attribute get" ∧
    runOk (syncContacts true [cBadRef] tLate [] []) = false :=
  ⟨rfl, rfl, rfl⟩

/-- C8 (amended): a record with a missing identifier aborts the whole batch
of any entity-type run — the error propagates, the store keeps its
pre-run contents and the trackers are untouched; a missing or malformed
value in any other field never aborts the record, except a truthy
non-dict value in a nested-reference field or a truthy non-serializable
value in a dumped field. -/
theorem missing_id_aborts_batch (entity : EntityKind) (incr : Bool)
    (fetched : List RemoteRecord) (now : PyDatetime) (store : Store)
    (trackers : List SyncTrackerRow) (c : RemoteRecord)
    (hmiss : ∃ r ∈ fetched, dictGet r "id" = Option.none) :
    (∃ msg, runEntity entity incr fetched now store trackers =
      .failed msg store trackers) ∧
    ((dictGet c "id").isSome = true →
     refOkB (dictGet c "Account_Name") = true →
     refOkB (dictGet c "Role_Owner") = true →
     refOkB (dictGet c "Layout") = true →
     refOkB (dictGet c "Interviewer") = true →
     refOkB (dictGet c "Community_Owner") = true →
     refOkB (dictGet c "Created_By") = true →
     refOkB (dictGet c "Visa_Owner") = true →
     serializableB (dictGet c "$field_states") = true →
     serializableB (dictGet c "$approval") = true →
     serializableB (dictGet c "$review_process") = true →
     serializableB (dictGet c "Visa_Alt_Options") = true →
     serializableB (dictGet c "Rating") = true →
     serializableB (dictGet c "$review") = true →
     serializableB (dictGet c "Tag") = true →
     ∃ row, mapContact c = .ok row) := by
  constructor
  · cases entity with
    | contacts =>
      obtain ⟨msg, hmsg⟩ :=
        applyBatch_error_of_missing_id mapContact fetched store hmiss
      exact ⟨msg, by simp only [runEntity, syncContacts, hmsg]⟩
    | accounts =>
      obtain ⟨msg, hmsg⟩ :=
        applyBatch_error_of_missing_id mapAccount fetched store hmiss
      exact ⟨msg, by simp only [runEntity, syncAccounts, hmsg]⟩
    | intern_roles =>
      obtain ⟨msg, hmsg⟩ :=
        applyBatch_error_of_missing_id mapInternRole fetched store hmiss
      exact ⟨msg, by simp only [runEntity, syncInternRoles, hmsg]⟩
  · intro hid hAcc hRole hLay hInt hComm hCre hVisa hFS hApp hRev hVAO hRat
      hRw hTag
    obtain ⟨v, hv⟩ := Option.isSome_iff_exists.mp hid
    obtain ⟨a1, e1⟩ := extract_id_ok _ hAcc
    obtain ⟨a2, e2⟩ := dumps_if_truthy_ok _ hFS
    obtain ⟨a3, e3⟩ := extract_name_ok _ hRole
    obtain ⟨a4, e4⟩ := dumps_if_truthy_ok _ hApp
    obtain ⟨a5, e5⟩ := dumps_if_truthy_ok _ hRev
    obtain ⟨a6, e6⟩ := extract_id_ok _ hLay
    obtain ⟨a7, e7⟩ := get_nested_ok c "Layout" "display_label" hLay
    obtain ⟨a8, e8⟩ := get_nested_ok c "Layout" "name" hLay
    obtain ⟨a9, e9⟩ := list_to_json_ok _ hVAO
    obtain ⟨a10, e10⟩ := extract_name_ok _ hInt
    obtain ⟨a11, e11⟩ := list_to_json_ok _ hRat
    obtain ⟨a12, e12⟩ := dumps_if_truthy_ok _ hRw
    obtain ⟨a13, e13⟩ := extract_name_ok _ hComm
    obtain ⟨a14, e14⟩ := extract_email_ok _ hCre
    obtain ⟨a15, e15⟩ := extract_name_ok _ hAcc
    obtain ⟨a16, e16⟩ := list_to_json_ok _ hTag
    obtain ⟨a17, e17⟩ := extract_name_ok _ hVisa
    refine ⟨contactRowOf c v ⟨a1, a2, a3, a4, a5, a6, a7, a8, a9, a10, a11,
      a12, a13, a14, a15, a16, a17⟩, ?_⟩
    simp only [mapContact, mapContactPre, hv, e1, e2, e3, e4, e5, e6, e7,
      e8, e9, e10, e11, e12, e13, e14, e15, e16, e17, exceptOkBind]
    rfl

/-- C8 witness: a batch containing an id-less record fails with the store
and trackers as they were, while a record with only an id maps fine. -/
theorem missing_id_aborts_batch_witness :
    (∃ msg, runEntity .contacts true [[("x", PyValue.none)]] tLate [] [] =
      .failed msg [] []) ∧
    (∃ row, mapContact cMini = .ok row) :=
  ⟨(missing_id_aborts_batch .contacts true [[("x", PyValue.none)]] tLate
      [] [] cMini ⟨[("x", PyValue.none)], List.mem_cons_self _ _, rfl⟩).1,
   (missing_id_aborts_batch .contacts true [[("x", PyValue.none)]] tLate
      [] [] cMini ⟨[("x", PyValue.none)], List.mem_cons_self _ _, rfl⟩).2
     rfl rfl rfl rfl rfl rfl rfl rfl rfl rfl rfl rfl rfl rfl rfl⟩

/-- The watermark-advance tail shared by the three orchestrators, after a
successful commit of `store2`: guarded by the entity's condition, the
tracker is updated only when `get_latest_modified_time` yields a
timestamp. -/
def trackerStep (ename : String) (guard : Bool)
    (fetched : List RemoteRecord) (now : PyDatetime) (store2 : Store)
    (trackers : List SyncTrackerRow) : RunResult :=
  if guard then
    match get_latest_modified_time fetched with
    | .error msg => .failed msg store2 trackers
    | .ok Option.none => .ok store2 trackers
    | .ok (some latest) =>
      .ok store2 (update_sync_tracker ename latest
        (Int.ofNat fetched.length) now trackers)
  else .ok store2 trackers

theorem syncContacts_eq (incr : Bool) (fetched : List RemoteRecord)
    (now : PyDatetime) (store : Store) (tr : List SyncTrackerRow) :
    syncContacts incr fetched now store tr =
      match applyBatch mapContact store fetched with
      | .error msg => .failed msg store tr
      | .ok s2 => trackerStep "contacts" (!fetched.isEmpty) fetched now s2 tr := by
  cases happ : applyBatch mapContact store fetched with
  | error msg => simp only [syncContacts, happ]
  | ok s2 => simp only [syncContacts, happ, trackerStep]

theorem syncAccounts_eq (incr : Bool) (fetched : List RemoteRecord)
    (now : PyDatetime) (store : Store) (tr : List SyncTrackerRow) :
    syncAccounts incr fetched now store tr =
      match applyBatch mapAccount store fetched with
      | .error msg => .failed msg store tr
      | .ok s2 =>
        trackerStep "accounts" (incr && !fetched.isEmpty) fetched now s2 tr := by
  cases happ : applyBatch mapAccount store fetched with
  | error msg => simp only [syncAccounts, happ]
  | ok s2 => simp only [syncAccounts, happ, trackerStep]

theorem syncInternRoles_eq (incr : Bool) (fetched : List RemoteRecord)
    (now : PyDatetime) (store : Store) (tr : List SyncTrackerRow) :
    syncInternRoles incr fetched now store tr =
      match applyBatch mapInternRole store fetched with
      | .error msg => .failed msg store tr
      | .ok s2 =>
        trackerStep "intern_roles" (incr && !fetched.isEmpty) fetched now s2 tr := by
  cases happ : applyBatch mapInternRole store fetched with
  | error msg => simp only [syncInternRoles, happ]
  | ok s2 => simp only [syncInternRoles, happ, trackerStep]

theorem trackerStep_ok (ename : String) (guard : Bool)
    (fetched : List RemoteRecord) (now : PyDatetime) (s2 : Store)
    (tr : List SyncTrackerRow) (store2 : Store) (tr2 : List SyncTrackerRow)
    (h : trackerStep ename guard fetched now s2 tr = .ok store2 tr2) :
    (guard = false → tr2 = tr) ∧
    (get_latest_modified_time fetched = .ok Option.none → tr2 = tr) ∧
    (∀ m, get_latest_modified_time fetched = .ok (some m) → guard = true →
      tr2 = update_sync_tracker ename m (Int.ofNat fetched.length) now tr) := by
  cases hg : guard with
  | false =>
    rw [hg, trackerStep, if_neg (by simp)] at h
    injection h with h1 h2
    exact ⟨fun _ => h2.symm, fun _ => h2.symm,
      fun m hm hgt => absurd hgt (by simp)⟩
  | true =>
    rw [hg, trackerStep, if_pos rfl] at h
    cases hlat : get_latest_modified_time fetched with
    | error msg =>
      rw [hlat] at h
      exact absurd h (by intro hc; exact RunResult.noConfusion hc)
    | ok o =>
      rw [hlat] at h
      cases o with
      | none =>
        injection h with h1 h2
        refine ⟨fun hc => absurd hc (by simp), fun _ => h2.symm,
          fun m hm hgt =>
            absurd (Except.ok.inj hm)
              (by intro hc; exact Option.noConfusion hc)⟩
      | some latest =>
        injection h with h1 h2
        refine ⟨fun hc => absurd hc (by simp),
          fun hm => absurd (Except.ok.inj hm)
            (by intro hc; exact Option.noConfusion hc),
          fun m hm hgt => ?_⟩
        have hml : latest = m := Option.some.inj (Except.ok.inj hm)
        rw [← h2, hml]

/-- C1 (amended): for a run that commits and completes successfully, the
tracker is updated with the latest parsed `Modified_Time` and the full
batch size exactly when some fetched record's `Modified_Time` parses and,
for accounts and intern roles, the run was requested incremental;
otherwise (empty batch, no parseable timestamp, or a full accounts /
intern-roles run) the trackers are untouched. -/
theorem tracker_advance (entity : EntityKind) (incr : Bool)
    (fetched : List RemoteRecord) (now : PyDatetime) (store store2 : Store)
    (tr tr2 : List SyncTrackerRow)
    (hrun : runEntity entity incr fetched now store tr = .ok store2 tr2) :
    (fetched = [] → tr2 = tr) ∧
    (get_latest_modified_time fetched = .ok Option.none → tr2 = tr) ∧
    (entity ≠ .contacts → incr = false → tr2 = tr) ∧
    (∀ m, get_latest_modified_time fetched = .ok (some m) →
      (entity = .contacts ∨ incr = true) →
      tr2 = update_sync_tracker (entityName entity) m
        (Int.ofNat fetched.length) now tr) := by
  have hne : ∀ m, get_latest_modified_time fetched = .ok (some m) →
      fetched.isEmpty = false := by
    intro m hm
    cases hf : fetched with
    | nil =>
      rw [hf] at hm
      exact absurd (Except.ok.inj hm)
        (by intro hc; exact Option.noConfusion hc)
    | cons a l => rfl
  cases entity with
  | contacts =>
    rw [runEntity, syncContacts_eq] at hrun
    cases happ : applyBatch mapContact store fetched with
    | error msg =>
      rw [happ] at hrun
      exact absurd hrun (by intro hc; exact RunResult.noConfusion hc)
    | ok s2 =>
      rw [happ] at hrun
      obtain ⟨hg, hnone, hsome⟩ := trackerStep_ok _ _ _ _ _ _ _ _ hrun
      refine ⟨fun he => hg (by rw [he]; rfl), hnone, fun hne2 _ => absurd rfl hne2,
        fun m hm _ => hsome m hm (by rw [hne m hm]; rfl)⟩
  | accounts =>
    rw [runEntity, syncAccounts_eq] at hrun
    cases happ : applyBatch mapAccount store fetched with
    | error msg =>
      rw [happ] at hrun
      exact absurd hrun (by intro hc; exact RunResult.noConfusion hc)
    | ok s2 =>
      rw [happ] at hrun
      obtain ⟨hg, hnone, hsome⟩ := trackerStep_ok _ _ _ _ _ _ _ _ hrun
      refine ⟨fun he => hg (by rw [he]; simp), hnone,
        fun _ hincr => hg (by rw [hincr]; rfl), fun m hm hor => ?_⟩
      have hincr : incr = true := by
        rcases hor with hc | hc
        · exact absurd hc (by intro hcc; exact EntityKind.noConfusion hcc)
        · exact hc
      exact hsome m hm (by rw [hincr, hne m hm]; rfl)
  | intern_roles =>
    rw [runEntity, syncInternRoles_eq] at hrun
    cases happ : applyBatch mapInternRole store fetched with
    | error msg =>
      rw [happ] at hrun
      exact absurd hrun (by intro hc; exact RunResult.noConfusion hc)
    | ok s2 =>
      rw [happ] at hrun
      obtain ⟨hg, hnone, hsome⟩ := trackerStep_ok _ _ _ _ _ _ _ _ hrun
      refine ⟨fun he => hg (by rw [he]; simp), hnone,
        fun _ hincr => hg (by rw [hincr]; rfl), fun m hm hor => ?_⟩
      have hincr : incr = true := by
        rcases hor with hc | hc
        · exact absurd hc (by intro hcc; exact EntityKind.noConfusion hcc)
        · exact hc
      exact hsome m hm (by rw [hincr, hne m hm]; rfl)

/-- A pre-existing contacts tracker. -/
def tr0ex : List SyncTrackerRow :=
  [⟨"contacts", some tEarly, 3, Option.none, Option.none⟩]

/-- C1 counterexample: a run that fetches one record and commits
successfully leaves the tracker untouched — the record has no
`Modified_Time`, so neither the timestamp nor the count is written, though
the claim requires an update for every non-empty fetch. -/
theorem tracker_advance_cex :
    runOk (syncContacts true [cMini] tLate [] tr0ex) = true ∧
    [cMini].length = 1 ∧
    runTrackers (syncContacts true [cMini] tLate [] tr0ex) = tr0ex :=
  ⟨rfl, rfl, rfl⟩

/-- The spec's example timestamp as a datetime. -/
def tMT : PyDatetime := ⟨2024, 1, 15, 10, 0, 0, some 0⟩

def cWithMT : RemoteRecord :=
  [("id", PyValue.str "8"),
   ("Modified_Time", PyValue.str "2024-01-15T10:00:00+00:00")]

def preNone : ContactPre :=
  ⟨Option.none, Option.none, Option.none, Option.none, Option.none,
   Option.none, Option.none, Option.none, Option.none, Option.none,
   Option.none, Option.none, Option.none, Option.none, Option.none,
   Option.none, Option.none⟩

/-- C1 witness: a successful one-record run with a parseable
`Modified_Time` advances the tracker to that timestamp with count 1. -/
theorem tracker_advance_witness :
    (([cWithMT] : List RemoteRecord) = [] →
      ([⟨"contacts", some tMT, 1, some tLate, some tLate⟩] :
        List SyncTrackerRow) = []) ∧
    (get_latest_modified_time [cWithMT] = .ok Option.none →
      ([⟨"contacts", some tMT, 1, some tLate, some tLate⟩] :
        List SyncTrackerRow) = []) ∧
    (EntityKind.contacts ≠ EntityKind.contacts → true = false →
      ([⟨"contacts", some tMT, 1, some tLate, some tLate⟩] :
        List SyncTrackerRow) = []) ∧
    (∀ m, get_latest_modified_time [cWithMT] = .ok (some m) →
      (EntityKind.contacts = .contacts ∨ true = true) →
      ([⟨"contacts", some tMT, 1, some tLate, some tLate⟩] :
        List SyncTrackerRow) =
        update_sync_tracker (entityName .contacts) m
          (Int.ofNat ([cWithMT] : List RemoteRecord).length) tLate []) :=
  tracker_advance .contacts true [cWithMT] tLate []
    [contactRowOf cWithMT (PyValue.str "8") preNone] []
    [⟨"contacts", some tMT, 1, some tLate, some tLate⟩] rfl

theorem get_sync_tracker_update_exists (e : String) (ts : PyDatetime)
    (n : Int) (now : PyDatetime) (trackers : List SyncTrackerRow) :
    ∃ t2, get_sync_tracker (update_sync_tracker e ts n now trackers) e =
      some t2 ∧ t2.last_sync_timestamp = some ts := by
  have h := get_sync_tracker_update e ts n now trackers
  cases hf : get_sync_tracker (update_sync_tracker e ts n now trackers) e with
  | none =>
    rw [hf] at h
    exact absurd h (by simp)
  | some t2 =>
    rw [hf] at h
    simp only [Option.map_some'] at h
    exact ⟨t2, rfl, (Prod.mk.injEq .. ▸ Option.some.inj h).1⟩

theorem trackerStep_watermark (ename : String) (guard : Bool)
    (fetched : List RemoteRecord) (now : PyDatetime) (s2 : Store)
    (tr : List SyncTrackerRow) (store2 : Store) (tr2 : List SyncTrackerRow)
    (ts : PyDatetime)
    (hHonor : ∀ r ∈ fetched, ∀ m, parsedMT r m → pyGT m ts = some true)
    (h : trackerStep ename guard fetched now s2 tr = .ok store2 tr2) :
    tr2 = tr ∨
    ∃ latest, tr2 = update_sync_tracker ename latest
        (Int.ofNat fetched.length) now tr ∧ pyGT latest ts = some true := by
  cases hg : guard with
  | false =>
    rw [hg, trackerStep, if_neg (by simp)] at h
    injection h with h1 h2
    exact .inl h2.symm
  | true =>
    rw [hg, trackerStep, if_pos rfl] at h
    cases hlat : get_latest_modified_time fetched with
    | error msg =>
      rw [hlat] at h
      exact absurd h (by intro hc; exact RunResult.noConfusion hc)
    | ok o =>
      rw [hlat] at h
      cases o with
      | none =>
        injection h with h1 h2
        exact .inl h2.symm
      | some latest =>
        injection h with h1 h2
        refine .inr ⟨latest, h2.symm, ?_⟩
        rw [get_latest_modified_time] at hlat
        cases hemp : fetched.isEmpty with
        | true =>
          rw [if_pos (by rw [hemp])] at hlat
          exact absurd (Except.ok.inj hlat)
            (by intro hc; exact Option.noConfusion hc)
        | false =>
          rw [if_neg (by rw [hemp]; exact Bool.false_ne_true)] at hlat
          rcases latestScan_ok_some_mem fetched Option.none latest hlat with
            hc | ⟨r, hmem, hp⟩
          · exact absurd hc (by intro hcc; exact Option.noConfusion hcc)
          · exact hHonor r hmem latest hp

/-- C2 (amended): across successful incremental runs whose Record Source
honors the strictly-greater criteria — every fetched record's parsed
`Modified_Time` compares strictly above the stored watermark — the
watermark never decreases: it is either untouched or moved to a strictly
greater parsed timestamp. A full (non-incremental) contacts run is not
covered, and can move the watermark backwards. -/
theorem watermark_monotone (entity : EntityKind)
    (fetched : List RemoteRecord) (now : PyDatetime) (store store2 : Store)
    (tr tr2 : List SyncTrackerRow) (t : SyncTrackerRow) (ts : PyDatetime)
    (hTr : get_sync_tracker tr (entityName entity) = some t)
    (hTs : t.last_sync_timestamp = some ts)
    (hHonor : ∀ r ∈ fetched, ∀ m, parsedMT r m → pyGT m ts = some true)
    (hRun : runEntity entity true fetched now store tr = .ok store2 tr2) :
    ∃ t2, get_sync_tracker tr2 (entityName entity) = some t2 ∧
      (t2.last_sync_timestamp = some ts ∨
       ∃ m, t2.last_sync_timestamp = some m ∧ pyGT m ts = some true) := by
  have main : tr2 = tr ∨
      ∃ latest, tr2 = update_sync_tracker (entityName entity) latest
        (Int.ofNat fetched.length) now tr ∧ pyGT latest ts = some true := by
    cases entity with
    | contacts =>
      rw [runEntity, syncContacts_eq] at hRun
      cases happ : applyBatch mapContact store fetched with
      | error msg =>
        rw [happ] at hRun
        exact absurd hRun (by intro hc; exact RunResult.noConfusion hc)
      | ok s2 =>
        rw [happ] at hRun
        exact trackerStep_watermark _ _ _ _ _ _ _ _ _ hHonor hRun
    | accounts =>
      rw [runEntity, syncAccounts_eq] at hRun
      cases happ : applyBatch mapAccount store fetched with
      | error msg =>
        rw [happ] at hRun
        exact absurd hRun (by intro hc; exact RunResult.noConfusion hc)
      | ok s2 =>
        rw [happ] at hRun
        exact trackerStep_watermark _ _ _ _ _ _ _ _ _ hHonor hRun
    | intern_roles =>
      rw [runEntity, syncInternRoles_eq] at hRun
      cases happ : applyBatch mapInternRole store fetched with
      | error msg =>
        rw [happ] at hRun
        exact absurd hRun (by intro hc; exact RunResult.noConfusion hc)
      | ok s2 =>
        rw [happ] at hRun
        exact trackerStep_watermark _ _ _ _ _ _ _ _ _ hHonor hRun
  rcases main with heq | ⟨latest, heq, hgt⟩
  · exact ⟨t, heq ▸ hTr, .inl hTs⟩
  · obtain ⟨t2, hfind, hlast⟩ := get_sync_tracker_update_exists
      (entityName entity) latest (Int.ofNat fetched.length) now tr
    exact ⟨t2, heq ▸ hfind, .inr ⟨latest, hlast, hgt⟩⟩

/-- A tracker already at a late watermark. -/
def trHi : List SyncTrackerRow :=
  [⟨"contacts", some tLate, 5, Option.none, Option.none⟩]

/-- C2 counterexample: a successful full (non-incremental) contacts run
whose only record is older than the stored watermark moves
`last_sync_timestamp` strictly backwards. -/
theorem watermark_monotone_cex :
    runOk (syncContacts false [cWithMT] tEarly [] trHi) = true ∧
    (get_sync_tracker trHi "contacts").map (fun t => t.last_sync_timestamp) =
      some (some tLate) ∧
    runTrackers (syncContacts false [cWithMT] tEarly [] trHi) =
      [⟨"contacts", some tMT, 1, Option.none, some tEarly⟩] ∧
    pyGT tMT tLate = some false ∧
    tMT ≠ tLate :=
  ⟨rfl, rfl, rfl, by decide, by decide⟩

/-- A record strictly newer than the `trHi` watermark. -/
def cFresh : RemoteRecord :=
  [("id", PyValue.str "9"),
   ("Modified_Time", PyValue.str "2024-06-01T00:00:00+00:00")]

def tFreshD : PyDatetime := ⟨2024, 6, 1, 0, 0, 0, some 0⟩

/-- C2 witness: an incremental run over a single strictly-newer record
advances the watermark to that record's timestamp. -/
theorem watermark_monotone_witness :
    ∃ t2, get_sync_tracker
        [⟨"contacts", some tFreshD, 1, Option.none, some tEarly⟩]
        (entityName .contacts) = some t2 ∧
      (t2.last_sync_timestamp = some tLate ∨
       ∃ m, t2.last_sync_timestamp = some m ∧ pyGT m tLate = some true) :=
  watermark_monotone .contacts [cFresh] tEarly []
    [contactRowOf cFresh (PyValue.str "9") preNone] trHi
    [⟨"contacts", some tFreshD, 1, Option.none, some tEarly⟩]
    ⟨"contacts", some tLate, 5, Option.none, Option.none⟩ tLate rfl rfl
    (by
      intro r hmem m hp
      rw [List.mem_singleton] at hmem
      subst hmem
      obtain ⟨s, hs, hparse⟩ := hp
      have hs2 : PyValue.str "2024-06-01T00:00:00+00:00" = PyValue.str s :=
        Option.some.inj hs
      have hs3 : s = "2024-06-01T00:00:00+00:00" := (PyValue.str.inj hs2).symm
      subst hs3
      have hred : fromisoformat (strReplace "2024-06-01T00:00:00+00:00"
          "Z" "+00:00") = some tFreshD := rfl
      rw [hred] at hparse
      have hm : tFreshD = m := Option.some.inj hparse
      subst hm
      decide)
    rfl

theorem lexLtInt_irrefl : ∀ l : List Int, lexLtInt l l = false
  | [] => rfl
  | x :: xs => by simp [lexLtInt, lexLtInt_irrefl xs]

theorem pyGT_self (m : PyDatetime) : pyGT m m = some false := by
  cases h : m.tz with
  | none => simp [pyGT, h, naiveLt, lexLtInt_irrefl]
  | some x => simp [pyGT, h]

/-- Absolute instant of an aware datetime. -/
def instOf (m : PyDatetime) : Int := instantSeconds m (m.tz.getD 0)

theorem pyGT_aware_instOf (a b : PyDatetime) (ha : ∃ x, a.tz = some x)
    (hb : ∃ y, b.tz = some y) :
    pyGT a b = some (decide (instOf b < instOf a)) := by
  obtain ⟨x, hx⟩ := ha
  obtain ⟨y, hy⟩ := hb
  simp [pyGT, hx, hy, instOf]

theorem pyGT_le_aware (a b : PyDatetime) (ha : ∃ x, a.tz = some x)
    (hb : ∃ y, b.tz = some y) :
    (pyGT a b ≠ some true) ↔ instOf a ≤ instOf b := by
  rw [pyGT_aware_instOf a b ha hb]
  constructor
  · intro h
    by_contra hlt
    have hlt2 : instOf b < instOf a := by omega
    exact h (by rw [decide_eq_true hlt2])
  · intro h hc
    have := of_decide_eq_true (Option.some.inj hc)
    omega

theorem latestScan_max (rs : List RemoteRecord) (acc : Option PyDatetime)
    (hStr : ∀ r ∈ rs, ∀ v, dictGet r "Modified_Time" = some v →
      pyTruthy (some v) = true → ∃ s, v = PyValue.str s)
    (hAware : ∀ r ∈ rs, ∀ m, parsedMT r m → ∃ x, m.tz = some x)
    (hAcc : ∀ m, acc = some m → ∃ x, m.tz = some x) :
    ∃ res, latestScan rs acc = .ok res ∧
      (∀ m, res = some m → ∃ x, m.tz = some x) ∧
      (res = Option.none ↔
        (acc = Option.none ∧ ∀ r ∈ rs, ∀ m, ¬ parsedMT r m)) ∧
      (∀ m, res = some m →
        (acc = some m ∨ ∃ r ∈ rs, parsedMT r m) ∧
        (∀ m0, acc = some m0 → pyGT m0 m ≠ some true) ∧
        (∀ r ∈ rs, ∀ m2, parsedMT r m2 → pyGT m2 m ≠ some true)) := by
  induction rs generalizing acc with
  | nil =>
    refine ⟨acc, by rw [latestScan], hAcc, ?_, ?_⟩
    · constructor
      · intro h
        exact ⟨h, by intro r hr; simp at hr⟩
      · exact fun h => h.1
    · intro m hm
      refine ⟨.inl hm, ?_, by intro r hr; simp at hr⟩
      intro m0 h0
      have he : m0 = m := Option.some.inj (h0.symm.trans hm)
      rw [he, pyGT_self]
      simp
  | cons r rest ih =>
    have hStr2 : ∀ r2 ∈ rest, ∀ v, dictGet r2 "Modified_Time" = some v →
        pyTruthy (some v) = true → ∃ s, v = PyValue.str s :=
      fun r2 h2 => hStr r2 (List.mem_cons_of_mem _ h2)
    have hAware2 : ∀ r2 ∈ rest, ∀ m, parsedMT r2 m → ∃ x, m.tz = some x :=
      fun r2 h2 => hAware r2 (List.mem_cons_of_mem _ h2)
    have assembleSkip : (∀ m, ¬ parsedMT r m) →
        latestScan (r :: rest) acc = latestScan rest acc →
        ∃ res, latestScan (r :: rest) acc = .ok res ∧
          (∀ m, res = some m → ∃ x, m.tz = some x) ∧
          (res = Option.none ↔
            (acc = Option.none ∧ ∀ r2 ∈ r :: rest, ∀ m, ¬ parsedMT r2 m)) ∧
          (∀ m, res = some m →
            (acc = some m ∨ ∃ r2 ∈ r :: rest, parsedMT r2 m) ∧
            (∀ m0, acc = some m0 → pyGT m0 m ≠ some true) ∧
            (∀ r2 ∈ r :: rest, ∀ m2, parsedMT r2 m2 →
              pyGT m2 m ≠ some true)) := by
      intro hnp heq
      obtain ⟨res, hrun, hresAw, hiff, hmax⟩ := ih acc hStr2 hAware2 hAcc
      refine ⟨res, heq ▸ hrun, hresAw, ?_, ?_⟩
      · rw [hiff]
        constructor
        · rintro ⟨ha, hn⟩
          refine ⟨ha, ?_⟩
          intro r2 hr2 m
          rcases List.mem_cons.mp hr2 with he | h2
          · exact he ▸ hnp m
          · exact hn r2 h2 m
        · rintro ⟨ha, hn⟩
          exact ⟨ha, fun r2 hr2 m => hn r2 (List.mem_cons_of_mem _ hr2) m⟩
      · intro m hm
        obtain ⟨hmem, haccb, hrestb⟩ := hmax m hm
        refine ⟨?_, haccb, ?_⟩
        · rcases hmem with h | ⟨r2, hr2, hp2⟩
          · exact .inl h
          · exact .inr ⟨r2, List.mem_cons_of_mem _ hr2, hp2⟩
        · intro r2 hr2 m2 hp2
          rcases List.mem_cons.mp hr2 with he | h2
          · exact absurd (he ▸ hp2) (hnp m2)
          · exact hrestb r2 h2 m2 hp2
    have skipAll : (∀ s, dictGet r "Modified_Time" ≠ some (PyValue.str s)) →
        pyTruthy (dictGet r "Modified_Time") = false →
        ∃ res, latestScan (r :: rest) acc = .ok res ∧
          (∀ m, res = some m → ∃ x, m.tz = some x) ∧
          (res = Option.none ↔
            (acc = Option.none ∧ ∀ r2 ∈ r :: rest, ∀ m, ¬ parsedMT r2 m)) ∧
          (∀ m, res = some m →
            (acc = some m ∨ ∃ r2 ∈ r :: rest, parsedMT r2 m) ∧
            (∀ m0, acc = some m0 → pyGT m0 m ≠ some true) ∧
            (∀ r2 ∈ r :: rest, ∀ m2, parsedMT r2 m2 →
              pyGT m2 m ≠ some true)) := by
      intro hmt hfalsy
      refine assembleSkip ?_ (latestScan_cons_skip rest r acc hmt hfalsy)
      rintro m ⟨s, hs, _⟩
      exact hmt s hs
    have assemblePush : ∀ m2, parsedMT r m2 → (∃ x, m2.tz = some x) →
        latestScan (r :: rest) acc = latestScan rest (some m2) →
        (∀ m0, acc = some m0 → pyGT m0 m2 ≠ some true) →
        (∀ m0, acc = some m0 → ∃ x, m0.tz = some x) →
        ∃ res, latestScan (r :: rest) acc = .ok res ∧
          (∀ m, res = some m → ∃ x, m.tz = some x) ∧
          (res = Option.none ↔
            (acc = Option.none ∧ ∀ r2 ∈ r :: rest, ∀ m, ¬ parsedMT r2 m)) ∧
          (∀ m, res = some m →
            (acc = some m ∨ ∃ r2 ∈ r :: rest, parsedMT r2 m) ∧
            (∀ m0, acc = some m0 → pyGT m0 m ≠ some true) ∧
            (∀ r2 ∈ r :: rest, ∀ m2, parsedMT r2 m2 →
              pyGT m2 m ≠ some true)) := by
      intro m2 hp2 hm2aw heq haccb0 hAcc0
      obtain ⟨res, hrun, hresAw, hiff, hmax⟩ := ih (some m2) hStr2 hAware2
        (fun m hm => (Option.some.inj hm) ▸ hm2aw)
      refine ⟨res, heq ▸ hrun, hresAw, ?_, ?_⟩
      · constructor
        · intro h
          obtain ⟨hc, _⟩ := hiff.mp h
          exact absurd hc (by intro hcc; exact Option.noConfusion hcc)
        · rintro ⟨ha, hn⟩
          exact absurd hp2 (hn r (List.mem_cons_self _ _) m2)
      · intro m hm
        obtain ⟨hmem, haccb, hrestb⟩ := hmax m hm
        have hm2_le : pyGT m2 m ≠ some true := haccb m2 rfl
        have hmaw : ∃ x, m.tz = some x := hresAw m hm
        refine ⟨?_, ?_, ?_⟩
        · rcases hmem with h | ⟨r2, hr2, hpp⟩
          · exact .inr ⟨r, List.mem_cons_self _ _, (Option.some.inj h) ▸ hp2⟩
          · exact .inr ⟨r2, List.mem_cons_of_mem _ hr2, hpp⟩
        · intro m0 h0
          have hm0aw := hAcc0 m0 h0
          rw [pyGT_le_aware m0 m hm0aw hmaw]
          have h1 := (pyGT_le_aware m0 m2 hm0aw hm2aw).mp (haccb0 m0 h0)
          have h2 := (pyGT_le_aware m2 m hm2aw hmaw).mp hm2_le
          omega
        · intro r2 hr2 m3 hp3
          rcases List.mem_cons.mp hr2 with he | h2
          · have hu : m3 = m2 := parsedMT_unique r2 m3 m2 hp3 (he ▸ hp2)
            rw [hu]
            exact hm2_le
          · exact hrestb r2 h2 m3 hp3
    cases hv : dictGet r "Modified_Time" with
    | none =>
      exact skipAll
        (by intro s hc; rw [hv] at hc; exact Option.noConfusion hc)
        (by rw [hv]; rfl)
    | some v =>
      cases v with
      | str s =>
        by_cases hs : s = ""
        · refine assembleSkip ?_ ?_
          · rintro m ⟨s2, hs2, hparse⟩
            have hse : PyValue.str s = PyValue.str s2 :=
              Option.some.inj (hv ▸ hs2)
            have : s2 = s := (PyValue.str.inj hse).symm
            rw [this, hs] at hparse
            exact Option.noConfusion hparse
          · rw [latestScan_cons_str rest r acc s hv, if_pos (by simp [hs])]
        · cases hp : fromisoformat (strReplace s "Z" "+00:00") with
          | none =>
            refine assembleSkip ?_ ?_
            · rintro m ⟨s2, hs2, hparse⟩
              have hse : PyValue.str s = PyValue.str s2 :=
                Option.some.inj (hv ▸ hs2)
              have he2 : s2 = s := (PyValue.str.inj hse).symm
              rw [he2, hp] at hparse
              exact Option.noConfusion hparse
            · rw [latestScan_cons_str rest r acc s hv,
                if_neg (by simp [hs]), hp]
          | some m2 =>
            have hp2 : parsedMT r m2 := ⟨s, hv, hp⟩
            have hm2aw := hAware r (List.mem_cons_self _ _) m2 hp2
            cases acc with
            | none =>
              refine assemblePush m2 hp2 hm2aw ?_
                (fun m0 h0 => absurd h0 (by intro hc; exact Option.noConfusion hc))
                (fun m0 h0 => absurd h0 (by intro hc; exact Option.noConfusion hc))
              rw [latestScan_cons_str rest r Option.none s hv,
                if_neg (by simp [hs]), hp]
            | some lt =>
              have hltaw := hAcc lt rfl
              cases hd : decide (instOf lt < instOf m2) with
              | true =>
                have hgt2 : pyGT m2 lt = some true := by
                  rw [pyGT_aware_instOf m2 lt hm2aw hltaw, hd]
                refine assemblePush m2 hp2 hm2aw ?_ ?_
                  (fun m0 h0 => by
                    injection h0 with h2
                    exact h2 ▸ hltaw)
                · rw [latestScan_cons_str rest r (some lt) s hv,
                    if_neg (by simp [hs]), hp]
                  dsimp only
                  rw [hgt2]
                · intro m0 h0
                  have he0 : m0 = lt := Option.some.inj h0.symm
                  rw [he0, pyGT_le_aware lt m2 hltaw hm2aw]
                  have := of_decide_eq_true hd
                  omega
              | false =>
                have hgt2 : pyGT m2 lt = some false := by
                  rw [pyGT_aware_instOf m2 lt hm2aw hltaw, hd]
                have heq : latestScan (r :: rest) (some lt) =
                    latestScan rest (some lt) := by
                  rw [latestScan_cons_str rest r (some lt) s hv,
                    if_neg (by simp [hs]), hp]
                  dsimp only
                  rw [hgt2]
                obtain ⟨res, hrun, hresAw, hiff, hmax⟩ :=
                  ih (some lt) hStr2 hAware2
                    (fun m hm => (Option.some.inj hm) ▸ hltaw)
                refine ⟨res, heq ▸ hrun, hresAw, ?_, ?_⟩
                · constructor
                  · intro h
                    obtain ⟨hc, _⟩ := hiff.mp h
                    exact absurd hc (by intro hcc; exact Option.noConfusion hcc)
                  · rintro ⟨ha, _⟩
                    exact absurd ha (by intro hcc; exact Option.noConfusion hcc)
                · intro m hm
                  obtain ⟨hmem, haccb, hrestb⟩ := hmax m hm
                  have hmaw : ∃ x, m.tz = some x := hresAw m hm
                  have hlt_le : pyGT lt m ≠ some true := haccb lt rfl
                  refine ⟨?_, ?_, ?_⟩
                  · rcases hmem with h | ⟨r2, hr2, hpp⟩
                    · exact .inl h
                    · exact .inr ⟨r2, List.mem_cons_of_mem _ hr2, hpp⟩
                  · exact haccb
                  · intro r2 hr2 m3 hp3
                    rcases List.mem_cons.mp hr2 with he | h2
                    · have hu : m3 = m2 := parsedMT_unique r2 m3 m2 hp3 (he ▸ hp2)
                      rw [hu, pyGT_le_aware m2 m hm2aw hmaw]
                      have hle1 : instOf m2 ≤ instOf lt := by
                        have := of_decide_eq_false hd
                        omega
                      have hle2 := (pyGT_le_aware lt m hltaw hmaw).mp hlt_le
                      omega
                    · exact hrestb r2 h2 m3 hp3
      | none =>
        exact skipAll
          (by intro s hc
              exact PyValue.noConfusion (Option.some.inj (hv ▸ hc)))
          (by rw [hv]; rfl)
      | int n =>
        cases hvt : pyTruthy (some (PyValue.int n)) with
        | true =>
          obtain ⟨s, hx⟩ := hStr r (List.mem_cons_self _ _) _ hv hvt
          exact absurd hx (by simp)
        | false =>
          exact skipAll
            (by intro s hc
                exact PyValue.noConfusion (Option.some.inj (hv ▸ hc)))
            (by rw [hv]; exact hvt)
      | bool b =>
        cases hvt : pyTruthy (some (PyValue.bool b)) with
        | true =>
          obtain ⟨s, hx⟩ := hStr r (List.mem_cons_self _ _) _ hv hvt
          exact absurd hx (by simp)
        | false =>
          exact skipAll
            (by intro s hc
                exact PyValue.noConfusion (Option.some.inj (hv ▸ hc)))
            (by rw [hv]; exact hvt)
      | dt d =>
        cases hvt : pyTruthy (some (PyValue.dt d)) with
        | true =>
          obtain ⟨s, hx⟩ := hStr r (List.mem_cons_self _ _) _ hv hvt
          exact absurd hx (by simp)
        | false =>
          exact skipAll
            (by intro s hc
                exact PyValue.noConfusion (Option.some.inj (hv ▸ hc)))
            (by rw [hv]; exact hvt)
      | list xs =>
        cases hvt : pyTruthy (some (PyValue.list xs)) with
        | true =>
          obtain ⟨s, hx⟩ := hStr r (List.mem_cons_self _ _) _ hv hvt
          exact absurd hx (by simp)
        | false =>
          exact skipAll
            (by intro s hc
                exact PyValue.noConfusion (Option.some.inj (hv ▸ hc)))
            (by rw [hv]; exact hvt)
      | dict fs =>
        cases hvt : pyTruthy (some (PyValue.dict fs)) with
        | true =>
          obtain ⟨s, hx⟩ := hStr r (List.mem_cons_self _ _) _ hv hvt
          exact absurd hx (by simp)
        | false =>
          exact skipAll
            (by intro s hc
                exact PyValue.noConfusion (Option.some.inj (hv ▸ hc)))
            (by rw [hv]; exact hvt)

/-- A record whose `Modified_Time` is a truthy non-string. -/
def cIntMT : RemoteRecord :=
  [("id", PyValue.str "5"), ("Modified_Time", PyValue.int 5)]

/-- C9 counterexample: a truthy non-string `Modified_Time` is not skipped —
`get_latest_modified_time` raises `AttributeError` (uncaught: only
`ValueError`/`TypeError` are handled), so a run over that record commits
its writes but then fails, instead of returning `None` and succeeding. -/
theorem latest_modified_time_max_cex :
    get_latest_modified_time [cIntMT] =
      .error "AttributeError: no attribute replace" ∧
    get_latest_modified_time [cIntMT] ≠ .ok Option.none ∧
    runOk (syncContacts true [cIntMT] tLate [] tr0ex) = false ∧
    runStore (syncContacts true [cIntMT] tLate [] tr0ex) =
      [contactRowOf cIntMT (PyValue.str "5") preNone] ∧
    runTrackers (syncContacts true [cIntMT] tLate [] tr0ex) = tr0ex :=
  ⟨rfl, by intro h; exact Except.noConfusion h, rfl, rfl, rfl⟩

/-- C9 (amended): over records whose `Modified_Time` values are absent,
falsy or strings, and whose parsed timestamps are timezone-aware,
`get_latest_modified_time` returns `None` exactly when no record's
`Modified_Time` parses (in particular for the empty list), and otherwise
one of the parsed timestamps that no parsed timestamp exceeds; and a
successful contacts run whose batch has no parseable `Modified_Time`
leaves the trackers untouched. -/
theorem latest_modified_time_max (records fetched : List RemoteRecord)
    (incr : Bool) (now : PyDatetime) (store store2 : Store)
    (tr tr2 : List SyncTrackerRow)
    (hStr : ∀ r ∈ records, ∀ v, dictGet r "Modified_Time" = some v →
      pyTruthy (some v) = true → ∃ s, v = PyValue.str s)
    (hAware : ∀ r ∈ records, ∀ m, parsedMT r m → ∃ x, m.tz = some x) :
    (∃ res, get_latest_modified_time records = .ok res ∧
      (res = Option.none ↔ ∀ r ∈ records, ∀ m, ¬ parsedMT r m) ∧
      (∀ m, res = some m →
        (∃ r ∈ records, parsedMT r m) ∧
        (∀ r ∈ records, ∀ m2, parsedMT r m2 → pyGT m2 m ≠ some true))) ∧
    (get_latest_modified_time fetched = .ok Option.none →
      syncContacts incr fetched now store tr = .ok store2 tr2 → tr2 = tr) := by
  constructor
  · cases hemp : records.isEmpty with
    | true =>
      have hnil : records = [] := by
        cases records with
        | nil => rfl
        | cons a l => simp [List.isEmpty] at hemp
      subst hnil
      refine ⟨Option.none, by rw [get_latest_modified_time]; rfl, ?_, ?_⟩
      · constructor
        · intro _ r hr
          simp at hr
        · intro _
          rfl
      · intro m hm
        exact absurd hm (by intro hc; exact Option.noConfusion hc)
    | false =>
      have hform : get_latest_modified_time records =
          latestScan records Option.none := by
        rw [get_latest_modified_time,
          if_neg (by rw [hemp]; exact Bool.false_ne_true)]
      obtain ⟨res, hrun, hresAw, hiff, hmax⟩ :=
        latestScan_max records Option.none hStr hAware
          (fun m hm => absurd hm (by intro hc; exact Option.noConfusion hc))
      refine ⟨res, hform ▸ hrun, ?_, ?_⟩
      · constructor
        · intro h
          exact (hiff.mp h).2
        · intro h
          exact hiff.mpr ⟨rfl, h⟩
      · intro m hm
        obtain ⟨hmem, _, hbound⟩ := hmax m hm
        refine ⟨?_, hbound⟩
        rcases hmem with h | h
        · exact absurd h (by intro hc; exact Option.noConfusion hc)
        · exact h
  · intro hnone hrun
    rw [syncContacts_eq] at hrun
    cases happ : applyBatch mapContact store fetched with
    | error msg =>
      rw [happ] at hrun
      exact absurd hrun (by intro hc; exact RunResult.noConfusion hc)
    | ok s2 =>
      rw [happ] at hrun
      exact (trackerStep_ok _ _ _ _ _ _ _ _ hrun).2.1 hnone

/-- C9 witness: over the single record with timestamp
2024-01-15T10:00:00+00:00 the maximum property holds, and an empty run
leaves the tracker untouched. -/
theorem latest_modified_time_max_witness :
    (∃ res, get_latest_modified_time [cWithMT] = .ok res ∧
      (res = Option.none ↔ ∀ r ∈ [cWithMT], ∀ m, ¬ parsedMT r m) ∧
      (∀ m, res = some m →
        (∃ r ∈ [cWithMT], parsedMT r m) ∧
        (∀ r ∈ [cWithMT], ∀ m2, parsedMT r m2 → pyGT m2 m ≠ some true))) ∧
    (get_latest_modified_time [] = .ok Option.none →
      syncContacts true [] tLate [] tr0ex = .ok [] tr0ex → tr0ex = tr0ex) :=
  latest_modified_time_max [cWithMT] [] true tLate [] [] tr0ex tr0ex
    (by
      intro r hmem v hv hvt
      rw [List.mem_singleton] at hmem
      subst hmem
      exact ⟨"2024-01-15T10:00:00+00:00", (Option.some.inj hv).symm⟩)
    (by
      intro r hmem m hp
      rw [List.mem_singleton] at hmem
      subst hmem
      obtain ⟨s, hs, hparse⟩ := hp
      have hs2 : s = "2024-01-15T10:00:00+00:00" :=
        (PyValue.str.inj (Option.some.inj hs)).symm
      subst hs2
      have hred : fromisoformat (strReplace "2024-01-15T10:00:00+00:00"
          "Z" "+00:00") = some tMT := rfl
      rw [hred] at hparse
      have hm2 : tMT = m := Option.some.inj hparse
      exact ⟨0, hm2 ▸ rfl⟩)
